import Mathlib

/-!
# w(1)/uptime(1), ypwhich(1) and dwarf.h: a shallow embedding

The C sources `usr.bin/w/w.c` and `usr.bin/ypwhich/ypwhich.c` are embedded as
pure Lean functions, the constants and name tables of `usr.bin/ctfconv/dwarf.h`
as lists.  Conventions:

* a NUL-terminated C string is the `List Char` / `String` of its bytes before
  the NUL; a fixed-size `char` array that need not be terminated (the fields
  of `struct utmp`) is the `List Char` of its raw bytes, read with `byteAt`
  (bytes past the end of the list read as NUL);
* the singly linked list `ehead` of `struct entry` is the `List Entry` of its
  nodes in `next` order, so the `next` link of a node is its position;
* everything the programs obtain from the operating system or from a library
  is a field of an environment record;
* what a program writes is collected, in order, in an `Outcome`.
-/

namespace Libc

/-- What a program has written so far on its two output streams, in order:
one list element per call of a printing function or, where several calls
build one line (the summary line and the entry lines of w), per line. -/
structure Written where
  stdout : List String
  stderr : List String
deriving DecidableEq, Repr

/-- The end of a run: everything written and the exit status. -/
structure Outcome where
  stdout : List String
  stderr : List String
  status : Nat
deriving DecidableEq, Repr

/-- Nothing written yet. -/
def Written.empty : Written := ⟨[], []⟩

/-- Append one write to stdout (`printf`, `puts`). -/
def Written.out (w : Written) (s : String) : Written :=
  { w with stdout := w.stdout ++ [s] }

/-- Append one write to stderr (`fprintf(stderr, ...)`, `warnx`). -/
def Written.err (w : Written) (s : String) : Written :=
  { w with stderr := w.stderr ++ [s] }

/-- The call `exit(status)`. -/
def Written.exit (w : Written) (status : Nat) : Outcome :=
  ⟨w.stdout, w.stderr, status⟩

/-- One return of `getopt(3)` other than -1: the option character (`?` on an
error), `optarg`, and the diagnostic getopt itself hands to `warnx`. -/
structure GetoptRet where
  ch : Char
  optarg : Option String
  diag : Option String
deriving DecidableEq, Repr

/-- How getopt leaves an argument word: it moves on (`optind` advanced past the
word, and past the next word when that was taken as `optarg`), or it returns
-1 inside the word and leaves `optind` on it. -/
inductive WordEnd where
  | next (tookNext : Bool)
  | stop
deriving DecidableEq, Repr

/-- Whether `oli[1] == ':'` for `oli = strchr(options, c)`: the option takes
an argument. -/
def optTakesArg (options : List Char) (c : Char) : Bool :=
  match options.dropWhile (fun d => d != c) with
  | _ :: ':' :: _ => true
  | _ => false

/-- Whether `oli[1] == ':' && oli[2] == ':'`: the argument is optional. -/
def optArgOptional (options : List Char) (c : Char) : Bool :=
  match options.dropWhile (fun d => d != c) with
  | _ :: ':' :: ':' :: _ => true
  | _ => false

/-- The error return of getopt for a missing argument: `:` when the option
string starts with a colon, `?` otherwise; the diagnostic is printed only in
the second case. -/
def badArg (options : List Char) (c : Char) : GetoptRet :=
  if options.head? = some ':' then ⟨':', none, none⟩
  else ⟨'?', none, some ("option requires an argument -- " ++ String.singleton c)⟩

/-- Modelled from the spec: `getopt(3)` is libc code that is not part of the
sources at hand; this is the BSD behaviour (no argument permutation) on the
characters `place` that remain of one argument word after its leading `-`.
`next` is the following argument word, if any. -/
def getoptWord (options : List Char) (next : Option String) :
    List Char → List GetoptRet × WordEnd
  | [] => ([], .next false)
  | c :: place =>
    if c = ':' ∨ (c = '-' ∧ place ≠ []) ∨ c ∉ options then
      if c = '-' ∧ place = [] then ([], .stop)
      else
        let r : GetoptRet :=
          ⟨'?', none,
            if options.head? = some ':' then none
            else some ("unknown option -- " ++ String.singleton c)⟩
        ((r :: (getoptWord options next place).1), (getoptWord options next place).2)
    else if optTakesArg options c then
      if place ≠ [] then ([⟨c, some (String.mk place), none⟩], .next false)
      else if optArgOptional options c then ([⟨c, none, none⟩], .next false)
      else
        match next with
        | some a => ([⟨c, some a, none⟩], .next true)
        | none => ([badArg options c], .next false)
    else
      ((⟨c, none, none⟩ :: (getoptWord options next place).1),
        (getoptWord options next place).2)

/-- Modelled from the spec: all successive returns of `getopt(argc, argv,
options)` until it returns -1, and the arguments `argv + optind` left over.
`args` is `argv` without `argv[0]`.  A word that does not start with `-`, or
the word `-` alone, ends the options; the word `--` ends them and is skipped. -/
def getoptAll (options : List Char) : List String → List GetoptRet × List String
  | [] => ([], [])
  | [w] =>
    match w.toList with
    | ['-'] =>
      if '-' ∈ options then
        match getoptWord options none ['-'] with
        | (rs, .stop) => (rs, [w])
        | (rs, .next _) => (rs, [])
      else ([], [w])
    | '-' :: c :: cs =>
      if c = '-' ∧ cs = [] then ([], [])
      else
        match getoptWord options none (c :: cs) with
        | (rs, .stop) => (rs, [w])
        | (rs, .next _) => (rs, [])
    | _ => ([], [w])
  | w :: a :: rest =>
    match w.toList with
    | ['-'] =>
      if '-' ∈ options then
        match getoptWord options (some a) ['-'] with
        | (rs, .stop) => (rs, w :: a :: rest)
        | (rs, .next true) => (rs ++ (getoptAll options rest).1, (getoptAll options rest).2)
        | (rs, .next false) =>
          (rs ++ (getoptAll options (a :: rest)).1, (getoptAll options (a :: rest)).2)
      else ([], w :: a :: rest)
    | '-' :: c :: cs =>
      if c = '-' ∧ cs = [] then ([], a :: rest)
      else
        match getoptWord options (some a) (c :: cs) with
        | (rs, .stop) => (rs, w :: a :: rest)
        | (rs, .next true) => (rs ++ (getoptAll options rest).1, (getoptAll options rest).2)
        | (rs, .next false) =>
          (rs ++ (getoptAll options (a :: rest)).1, (getoptAll options (a :: rest)).2)
    | _ => ([], w :: a :: rest)

/-- Every return of getopt that carries a diagnostic is the error return. -/
def DiagIsError (gs : List GetoptRet) : Prop :=
  ∀ g ∈ gs, g.diag ≠ none → g.ch = '?'

end Libc

namespace W

open Libc

/-! ## Data model of w.c -/

/-- Sizes of the `struct utmp` arrays (`<utmp.h>`). -/
def UT_LINESIZE : Nat := 8
/-- Size of `ut_name` (`<utmp.h>`). -/
def UT_NAMESIZE : Nat := 32
/-- Size of `ut_host` (`<utmp.h>`). -/
def UT_HOSTSIZE : Nat := 256

/-- The record `struct utmp`: three raw character arrays and the login time. -/
structure Utmp where
  ut_line : List Char
  ut_name : List Char
  ut_host : List Char
  ut_time : Int
deriving DecidableEq, Repr

/-- The fields of `struct kinfo_proc` that w.c reads. -/
structure KinfoProc where
  p_psflags : Nat
  p_pid : Int
  p_tdev : Int
  p__pgid : Int
  p_tpgid : Int
  p_comm : List Char
deriving DecidableEq, Repr

/-- The node `struct entry` without its `next` link (w.c:86-92); `calloc`
zeroes a fresh node, so `tdev = 0`, `idle = 0` and `kp = NULL` until set. -/
structure Entry where
  utmp : Utmp
  tdev : Int
  idle : Int
  kp : Option KinfoProc
deriving DecidableEq, Repr

/-! ## Helpers for C strings and machine integers -/

/-- The terminating NUL character. -/
def NUL : Char := Char.ofNat 0

/-- Byte `i` of a raw character array; past its end the array reads as NUL. -/
def byteAt (raw : List Char) (i : Nat) : Char := raw.getD i NUL

/-- The string that `%.*s` or `strncat` reads from a raw array: the bytes
before the first NUL, at most `n` of them. -/
def cstrn (n : Nat) (raw : List Char) : List Char :=
  (raw.take n).takeWhile (fun c => c != NUL)

/-- The test `strncmp(a, b, n) == 0`. -/
def strncmpEq : Nat → List Char → List Char → Bool
  | 0, _, _ => true
  | n + 1, a, b =>
    if a.headD NUL != b.headD NUL then false
    else if a.headD NUL == NUL then true
    else strncmpEq n a.tail b.tail

/-- Conversion to `int` (32 bits, two's complement). -/
def toInt32 (x : Int) : Int := (x + 2 ^ 31) % 2 ^ 32 - 2 ^ 31

/-- Conversion to `time_t`/`long` (64 bits, two's complement). -/
def toInt64 (x : Int) : Int := (x + 2 ^ 63) % 2 ^ 64 - 2 ^ 63

/-- The predicate `isspace` of the C locale. -/
def isspace (c : Char) : Bool :=
  c == ' ' || (9 ≤ c.toNat && c.toNat ≤ 13)

/-- Modelled from the spec: `strtol(s, NULL, 10)` of libc, which is not part of
the sources at hand: white space is skipped, an optional sign is read, then
the decimal digits; the value is clamped to the range of `long`. -/
def strtol10 (s : List Char) : Int :=
  let t := s.dropWhile isspace
  let d := match t with
    | '-' :: r => r
    | '+' :: r => r
    | _ => t
  let n : Int := (d.takeWhile Char.isDigit).foldl
    (fun acc c => acc * 10 + ((c.toNat - 48 : Nat) : Int)) 0
  if t.head? = some '-' then max (-(2 ^ 63)) (-n) else min (2 ^ 63 - 1) n

/-- The result `strchr(s, c)` for `c` other than NUL: the rest of `s` from the
first `c` on, `none` for `NULL`. -/
def strchr (s : List Char) (c : Char) : Option (List Char) :=
  match s.dropWhile (fun d => d != c) with
  | [] => none
  | t => some t

/-- The conversion `%-W.Ps` of printf on a raw array: at most `prec` bytes
before the first NUL, padded with blanks on the right to `width`. -/
def fmtLeft (width prec : Nat) (raw : List Char) : List Char :=
  cstrn prec raw ++ List.replicate (width - (cstrn prec raw).length) ' '

/-- The conversion `%2d` of printf. -/
def fmtD2 (n : Int) : String :=
  if (toString n).length < 2 then " " ++ toString n else toString n

/-- The conversion `%02d` of printf. -/
def fmt02D (n : Int) : String :=
  if (toString n).length < 2 then "0" ++ toString n else toString n

/-- The plural ending `cond ? "s" : ""`. -/
def plural (cond : Bool) : String := if cond then "s" else ""

/-! ## The environment of w -/

/-- The fields of `struct stat` that w.c reads. -/
structure Stat where
  st_rdev : Int
  st_atime : Int
deriving DecidableEq, Repr

/-- Everything w obtains from the system.  `malloc` and `calloc` are taken to
succeed.  `pr_attime`, `pr_idle` and `proc_compare` are the functions of
`extern.h`, whose code is not part of the sources at hand; the first two are
given by the text they print. -/
structure Env where
  pledge : String → Bool
  strerror : String
  kvm_openfiles : Option String → Option String → Bool → Option String
  time : Int
  utmp : Option (List Utmp)
  stat : List Char → Option Stat
  kern_consdev : Option Int
  strftime : Int → String
  boottime : Option Int
  loadavg : Option (String × String × String)
  kvm_getprocs : Except String (List KinfoProc)
  winsize : Nat → Option Nat
  proc_compare : Option KinfoProc → KinfoProc → Bool
  gethostname : Option (List Char)
  getaddrinfo : List Char → Option Nat
  getnameinfo : Nat → Option (List Char)
  pr_attime : Int → Int → String
  pr_idle : Int → String
  kvm_getargv : KinfoProc → Int → Option (List (List Char))
  strvis : List Char → List Char

/-! ## Start of `main`: mode and options (w.c:114-152) -/

/-- The test "are we w(1) or uptime(1)?" on `__progname`: `some true` for
`wcmd = 1`, `some false` for `wcmd = 0`, `none` for the `errx` branch. -/
def selectMode (progname : List Char) : Option Bool :=
  let p := if progname.head? = some '-' then progname.tail else progname
  if p.head? = some 'w' ∧ p.tail.head? = none then some true
  else if p = "uptime".toList then some false
  else none

/-- The option string handed to getopt. -/
def optstring (wcmd : Bool) : String := if wcmd then "hiflM:N:asuw" else ""

/-- The globals and locals that the option loop sets. -/
structure Flags where
  header : Bool
  nflag : Bool
  sortidle : Bool
  memf : Option String
  nlistf : Option String
deriving DecidableEq, Repr

/-- The initial values: `header = 1`, `nflag = 1`, `sortidle = 0`,
`memf = nlistf = NULL`. -/
def Flags.init : Flags := ⟨true, true, false, none, none⟩

/-- The function `usage` (w.c:498-508). -/
def usage (wcmd : Bool) (w : Written) : Outcome :=
  if wcmd then (w.err "usage: w [-ahi] [-M core] [-N system] [user]\n").exit 1
  else (w.err "usage: uptime\n").exit 1

/-- One pass through the `switch (ch)` of the option loop. -/
def optCase (progname : String) (wcmd : Bool) (w : Written) (f : Flags)
    (g : GetoptRet) : Except Outcome Flags :=
  if g.ch = 'h' then .ok { f with header := false }
  else if g.ch = 'i' then .ok { f with sortidle := true }
  else if g.ch = 'M' then .ok { f with header := false, memf := g.optarg }
  else if g.ch = 'N' then .ok { f with nlistf := g.optarg }
  else if g.ch = 'a' then .ok { f with nflag := false }
  else if g.ch = 'f' ∨ g.ch = 'l' ∨ g.ch = 's' ∨ g.ch = 'u' ∨ g.ch = 'w' then
    .error (usage wcmd (w.err (progname ++ ": [-flsuw] no longer supported\n")))
  else .error (usage wcmd w)

/-- The option loop over the successive returns of getopt. -/
def optLoop (progname : String) (wcmd : Bool) (w : Written) (f : Flags) :
    List GetoptRet → Except Outcome (Written × Flags)
  | [] => .ok (w, f)
  | g :: gs =>
    let w1 := match g.diag with
      | some d => w.err (progname ++ ": " ++ d ++ "\n")
      | none => w
    match optCase progname wcmd w1 f g with
    | .error out => .error out
    | .ok f1 => optLoop progname wcmd w1 f1 gs

/-! ## The utmp scan (w.c:177-213) -/

/-- The function `ttystat` (w.c:484-496): `stat` on `/dev/` followed by the
line name. -/
def ttystat (env : Env) (line : List Char) : Option Stat :=
  env.stat ("/dev/".toList ++ cstrn UT_LINESIZE line)

/-- One pass through the body of the `fread` loop on the state
`(nusers, ehead)`; a new entry is linked at the tail. -/
def scanStep (env : Env) (wcmd : Bool) (sel_user : Option (List Char))
    (st : Int × List Entry) (utmp : Utmp) : Int × List Entry :=
  if byteAt utmp.ut_name 0 = NUL then st
  else
    let nusers := toInt32 (st.1 + 1)
    if wcmd = false ∨ (∃ s ∈ sel_user, strncmpEq UT_NAMESIZE utmp.ut_name s = false) then
      (nusers, st.2)
    else
      match ttystat env utmp.ut_line with
      | none => (nusers, st.2 ++ [⟨utmp, 0, 0, none⟩])
      | some stp =>
        let tdev := if stp.st_rdev = 0 then env.kern_consdev.getD 0 else stp.st_rdev
        let idle := toInt64 (env.time - stp.st_atime)
        (nusers, st.2 ++ [⟨utmp, tdev, if idle < 0 then 0 else idle, none⟩])

/-- The whole loop `for (nusers = 0; fread(...);)`. -/
def scanUtmp (env : Env) (wcmd : Bool) (sel_user : Option (List Char))
    (records : List Utmp) : Int × List Entry :=
  records.foldl (scanStep env wcmd sel_user) (0, [])

/-! ## The summary line (w.c:419-482) -/

/-- Seconds per day, from `extern.h`. -/
def SECSPERDAY : Int := 24 * 60 * 60
/-- Seconds per hour, from `extern.h`. -/
def SECSPERHOUR : Int := 60 * 60

/-- The values `days`, `hrs`, `mins` that `pr_header` computes from an uptime
above 59 seconds. -/
def uptimeParts (tv_sec : Int) : Int × Int × Int :=
  let uptime := toInt64 (tv_sec + 30)
  let days := toInt32 (Int.tdiv uptime SECSPERDAY)
  let uptime := Int.tmod uptime SECSPERDAY
  let hrs := toInt32 (Int.tdiv uptime SECSPERHOUR)
  let uptime := Int.tmod uptime SECSPERHOUR
  let mins := toInt32 (Int.tdiv uptime 60)
  (days, hrs, mins)

/-- What `pr_header` prints about the uptime. -/
def prUptime (boottime : Option Int) : String :=
  match boottime with
  | none => ""
  | some uptime =>
    if uptime > 59 then
      let days := (uptimeParts uptime).1
      let hrs := (uptimeParts uptime).2.1
      let mins := (uptimeParts uptime).2.2
      " up" ++
      (if days > 0 then " " ++ toString days ++ " day" ++ plural (days > 1) ++ "," else "") ++
      (if hrs > 0 ∧ mins > 0 then " " ++ fmtD2 hrs ++ ":" ++ fmt02D mins ++ ","
       else
        (if hrs > 0 then " " ++ toString hrs ++ " hr" ++ plural (hrs > 1) ++ "," else "") ++
        (if mins > 0 ∨ (days = 0 ∧ hrs = 0)
          then " " ++ toString mins ++ " min" ++ plural (mins ≠ 1) ++ "," else ""))
    else " " ++ toString (toInt32 uptime) ++ " secs,"

/-- The function `pr_header` (w.c:419-482): the summary line it prints. -/
def pr_header (env : Env) (nowp : Int) (nusers : Int) : String :=
  env.strftime nowp ++ " " ++ prUptime env.boottime ++
  " " ++ toString nusers ++ " user" ++ plural (nusers ≠ 1) ++
  (match env.loadavg with
   | none => ", no load average information available\n"
   | some (a, b, c) => ", load averages:" ++ " " ++ a ++ "," ++ " " ++ b ++ "," ++ " " ++ c ++ "\n")

/-! ## The sort pass (w.c:268-283) -/

/-- The inner `for` of the sort pass followed by the two link assignments:
`nextp` walks the new list while `*nextp && from->idle >= (*nextp)->idle`,
then `save->next = *nextp; *nextp = save`. -/
def insertIdle (save : Entry) : List Entry → List Entry
  | [] => [save]
  | e :: rest =>
    if save.idle ≥ e.idle then e :: insertIdle save rest else save :: e :: rest

/-- The `while (from != NULL)` loop: `frm` is the rest of the old list,
`ehead` the list built so far. -/
def sortLoop : List Entry → List Entry → List Entry
  | [], ehead => ehead
  | save :: frm, ehead => sortLoop frm (insertIdle save ehead)

/-- The whole block `if (sortidle && ehead != NULL) { ... }`. -/
def sortPass (sortidle : Bool) (ehead : List Entry) : List Entry :=
  if sortidle && !ehead.isEmpty then sortLoop ehead [] else ehead

/-- Adjacent entries are in non-decreasing order of idle time. -/
def IdleOrdered (l : List Entry) : Prop :=
  List.Chain' (fun a b => a.idle ≤ b.idle) l

/-! ## The process scan (w.c:240-267) -/

/-- Process flag "new process, not yet fledged", from `<sys/proc.h>`. -/
def PS_EMBRYO : Nat := 0x00020000
/-- Process flag "dead and ready to be waited for", from `<sys/proc.h>`. -/
def PS_ZOMBIE : Nat := 0x00040000

/-- The pid that an `ftp` line names: `strtol` on the at most
`sizeof(pidstr) - 1 = UT_LINESIZE - 3` bytes after the first three. -/
def ftpPid (ut_line : List Char) : Int :=
  toInt32 (strtol10 (cstrn (UT_LINESIZE - 3) (ut_line.drop 3)))

/-- The inner loop `for (ep = ehead; ep != NULL; ep = ep->next)` for one
process `kp`: the walk ends at the first entry that takes the `break`. -/
def offerProc (env : Env) (kp : KinfoProc) : List Entry → List Entry
  | [] => []
  | ep :: rest =>
    if strncmpEq 3 ep.utmp.ut_line "ftp".toList then
      if kp.p_pid = ftpPid ep.utmp.ut_line then { ep with kp := some kp } :: rest
      else ep :: offerProc env kp rest
    else if ep.tdev % 2 ^ 32 = kp.p_tdev % 2 ^ 32 ∧ kp.p__pgid = kp.p_tpgid then
      (if env.proc_compare ep.kp kp then { ep with kp := some kp } else ep) :: rest
    else ep :: offerProc env kp rest

/-- One pass through the outer loop over the process table. -/
def procStep (env : Env) (ehead : List Entry) (kp : KinfoProc) : List Entry :=
  if kp.p_psflags &&& (PS_EMBRYO ||| PS_ZOMBIE) ≠ 0 then ehead
  else offerProc env kp ehead

/-- The whole loop `for (i = 0; i < nentries; i++, kp++)`. -/
def procScan (env : Env) (procs : List KinfoProc) (ehead : List Entry) : List Entry :=
  procs.foldl (procStep env) ehead

/-! ## Printing a line (w.c:285-417) -/

/-- The heading line. -/
def HEADER : String := "USER    TTY FROM              LOGIN@  IDLE WHAT"

/-- The macro `WUSED`: `sizeof(HEADER) - sizeof("WHAT")`. -/
def WUSED : Int := ((HEADER.length : Int) + 1) - (("WHAT".length : Int) + 1)

/-- The limit `HOST_NAME_MAX` of `<limits.h>`. -/
def HOST_NAME_MAX : Nat := 255

/-- The width `ttywidth`: the `TIOCGWINSZ` ioctl is tried on stdout (1),
stderr (2) and stdin (0); `winsize fd` is `ws_col` when the ioctl on `fd`
succeeds. -/
def ttywidth (env : Env) : Int :=
  let ws_col : Nat :=
    match env.winsize 1 with
    | some c => c
    | none =>
      match env.winsize 2 with
      | some c => c
      | none => (env.winsize 0).getD 0
  if ws_col = 0 then 79 else (ws_col : Int) - 1

/-- The width `argwidth` left for the command. -/
def argwidth (env : Env) : Int :=
  if toInt32 (ttywidth env - WUSED) < 4 then 8 else toInt32 (ttywidth env - WUSED)

/-- What `pr_args` has printed so far and the counter `left`. -/
structure Fmt where
  out : List Char
  left : Int
deriving DecidableEq, Repr

/-- The function `fmt_putc` (w.c:331-340). -/
def fmt_putc (c : Char) (s : Fmt) : Fmt :=
  if s.left = 0 then s
  else ⟨s.out ++ [c], if s.left ≠ -1 then s.left - 1 else s.left⟩

/-- The function `fmt_puts` (w.c:342-372); `strvis` is the libc encoder with
the flags `VIS_TAB | VIS_NL | VIS_CSTYLE`. -/
def fmt_puts (env : Env) (str : List Char) (s : Fmt) : Fmt :=
  if s.left = 0 then s
  else if s.left ≠ -1 then
    if ((env.strvis str).length : Int) > s.left % 2 ^ 64 then
      ⟨s.out ++ (env.strvis str).take s.left.toNat, 0⟩
    else ⟨s.out ++ env.strvis str, toInt32 (s.left - (env.strvis str).length)⟩
  else ⟨s.out ++ env.strvis str, s.left⟩

/-- The string that the loop of `pr_args` hands to `fmt_puts` for one
argument (w.c:399-410): the ftpd title is cut after its second further
colon. -/
def ftpdArg (arg : List Char) : List Char :=
  if strncmpEq 5 arg "ftpd:".toList then
    match strchr (arg.drop 5) ':' with
    | none => arg
    | some s1 =>
      match strchr (s1.drop 1) ':' with
      | none => arg
      | some str =>
        if str.head? = some ':' ∧ isspace (byteAt str 1) then str.drop 2 else str
  else arg

/-- The loop `while (*argv)` of `pr_args`. -/
def argsLoop (env : Env) : List (List Char) → Fmt → Fmt
  | [], s => s
  | arg :: argv, s => argsLoop env argv (fmt_putc ' ' (fmt_puts env (ftpdArg arg) s))

/-- The function `pr_args` (w.c:375-417): the characters it prints. -/
def pr_args (env : Env) (kp : Option KinfoProc) : List Char :=
  match kp with
  | none => ['-']
  | some p =>
    match env.kvm_getargv p (toInt32 (argwidth env + 60)) with
    | none => ['-']
    | some argv =>
      let s0 : Fmt := ⟨[], argwidth env⟩
      let s1 :=
        if argv.head? = none ∨ argv.head? = some [] then
          fmt_putc ')' (fmt_puts env p.p_comm (fmt_putc '(' s0))
        else s0
      (argsLoop env argv s1).out

/-- The function `tolower` of the C locale. -/
def tolower (c : Char) : Char :=
  if 'A' ≤ c ∧ c ≤ 'Z' then Char.ofNat (c.toNat + 32) else c

/-- The function `hostlookup` (w.c:510-537). -/
def hostlookup (env : Env) (host domain : List Char) : Option (List Char) :=
  match env.getaddrinfo host with
  | none => none
  | some addr =>
    match env.getnameinfo addr with
    | none => none
    | some buf =>
      if domain ≠ [] ∧ buf.length > domain.length ∧
          (buf.drop (buf.length - domain.length)).map tolower = domain.map tolower then
        some (buf.take (buf.length - domain.length))
      else some buf

/-- The global `domain` after w.c:285-293. -/
def domainOf (env : Env) (nflag : Bool) : List Char :=
  if nflag = false then
    match env.gethostname with
    | none => []
    | some h => (h.take HOST_NAME_MAX).dropWhile (fun c => c != '.')
  else []

/-- The host string `p` of one line (w.c:296-316). -/
def hostOf (env : Env) (nflag : Bool) (domain : List Char) (ut_host : List Char) :
    List Char :=
  let p0 := if byteAt ut_host 0 ≠ NUL then cstrn UT_HOSTSIZE ut_host else ['-']
  let p :=
    if ':' ∈ p0 then
      (p0.takeWhile (fun c => c != ':') ++ [':'] ++
        p0.drop ((p0.takeWhile (fun c => c != ':')).length + 1)).take HOST_NAME_MAX
    else p0
  if nflag = false then (hostlookup env p domain).getD p else p

/-- The line printed for one entry (w.c:318-326). -/
def prEntry (env : Env) (nflag : Bool) (domain : List Char) (ep : Entry) : String :=
  String.mk (fmtLeft 8 UT_NAMESIZE ep.utmp.ut_name ++ [' '] ++
    fmtLeft 2 2 (if strncmpEq 3 ep.utmp.ut_line "tty".toList
      then ep.utmp.ut_line.drop 3 else ep.utmp.ut_line) ++ [' '] ++
    fmtLeft 16 16 (if (hostOf env nflag domain ep.utmp.ut_host).head? ≠ none
      then hostOf env nflag domain ep.utmp.ut_host else ['-']) ++ [' ']) ++
  env.pr_attime ep.utmp.ut_time env.time ++ env.pr_idle ep.idle ++
  String.mk (pr_args env ep.kp) ++ "\n"

/-! ## The rest of `main` (w.c:153-329) -/

/-- The listing, from `kvm_getprocs` to the final `exit(0)` (w.c:226-328). -/
def listing (env : Env) (progname : String) (f : Flags) (w : Written)
    (ehead : List Entry) : Outcome :=
  match env.kvm_getprocs with
  | .error e => (w.err (progname ++ ": " ++ e ++ "\n")).exit 1
  | .ok procs =>
    ((sortPass f.sortidle (procScan env procs ehead)).foldl
      (fun acc ep => acc.out (prEntry env f.nflag (domainOf env f.nflag) ep)) w).exit 0

/-- The summary and heading (w.c:215-224) followed by the listing. -/
def afterScan (env : Env) (progname : String) (wcmd : Bool) (f : Flags) (w : Written)
    (nusers : Int) (ehead : List Entry) : Outcome :=
  let w1 := if f.header = true ∨ wcmd = false
    then w.out (pr_header env env.time nusers) else w
  if (f.header = true ∨ wcmd = false) ∧ wcmd = false then w1.exit 0
  else
    let w2 := if f.header = true then w1.out (HEADER ++ "\n") else w1
    listing env progname f w2 ehead

/-- The promises handed to `pledge` (w.c:156-162). -/
def promises (nflag : Bool) : String :=
  if nflag = false then "stdio tty rpath dns ps vminfo" else "stdio tty rpath ps vminfo"

/-- The part of `main` after the option loop (w.c:153-329); `argv` is the
argument vector after `argv += optind`. -/
def afterOpts (env : Env) (progname : String) (wcmd : Bool) (f : Flags) (w : Written)
    (argv : List String) : Outcome :=
  if env.pledge (promises f.nflag) = false then
    (w.err (progname ++ ": pledge: " ++ env.strerror ++ "\n")).exit 1
  else
    match env.kvm_openfiles f.nlistf f.memf (f.nlistf = none ∧ f.memf = none) with
    | some errbuf => (w.err (progname ++ ": " ++ errbuf ++ "\n")).exit 1
    | none =>
      match env.utmp with
      | none => (w.err (progname ++ ": /var/run/utmp: " ++ env.strerror ++ "\n")).exit 1
      | some records =>
        afterScan env progname wcmd f w
          (scanUtmp env wcmd (argv.head?.map String.toList) records).1
          (scanUtmp env wcmd (argv.head?.map String.toList) records).2

/-- The program `main` of w.c, run under the name `progname` with the
arguments `args` (`argv` without `argv[0]`). -/
def main (env : Env) (progname : String) (args : List String) : Outcome :=
  match selectMode progname.toList with
  | none =>
    (Written.empty.err (progname ++
      ": this program should be invoked only as \"w\" or \"uptime\"\n")).exit 1
  | some wcmd =>
    match optLoop progname wcmd Written.empty Flags.init
        (getoptAll (optstring wcmd).toList args).1 with
    | .error out => out
    | .ok (w, f) => afterOpts env progname wcmd f w (getoptAll (optstring wcmd).toList args).2

/-! ## Notions used to state the properties -/

/-- The lines of the listing: one line per entry of the final list, none when
`kvm_getprocs` fails. -/
def entryLines (env : Env) (f : Flags) (ehead : List Entry) : List String :=
  match env.kvm_getprocs with
  | .error _ => []
  | .ok procs =>
    (sortPass f.sortidle (procScan env procs ehead)).map
      (prEntry env f.nflag (domainOf env f.nflag))

/-- The number of utmp records whose `ut_name` is not empty. -/
def countUsers (records : List Utmp) : Nat :=
  (records.filter (fun u => byteAt u.ut_name 0 != NUL)).length

/-- The test of the utmp scan for linking a record in w mode: the name is not
empty and, when a user argument is given, equals it in its first
`UT_NAMESIZE` bytes. -/
def selected (sel_user : Option (List Char)) (u : Utmp) : Bool :=
  byteAt u.ut_name 0 != NUL &&
    (match sel_user with
     | none => true
     | some s => decide (cstrn UT_NAMESIZE u.ut_name = cstrn UT_NAMESIZE s))

/-- The entry that one pass of the utmp scan links for a record. -/
def entryOf (env : Env) (u : Utmp) : Entry :=
  match ttystat env u.ut_line with
  | none => ⟨u, 0, 0, none⟩
  | some stp =>
    ⟨u, if stp.st_rdev = 0 then env.kern_consdev.getD 0 else stp.st_rdev,
      if toInt64 (env.time - stp.st_atime) < 0 then 0
      else toInt64 (env.time - stp.st_atime), none⟩

/-- The fields of an entry that only the utmp scan writes. -/
def Entry.fixed (e : Entry) : Utmp × Int × Int := (e.utmp, e.tdev, e.idle)

/-- The idle time of an entry as a function of its terminal: not negative; 0
when the terminal cannot be stat'ed; otherwise, for an access time whose
distance from `now` fits `time_t`, `now - st_atime` when that is not
negative and 0 when the access time lies in the future. -/
def IdleSpec (env : Env) (e : Entry) : Prop :=
  0 ≤ e.idle ∧
  (ttystat env e.utmp.ut_line = none → e.idle = 0) ∧
  (∀ stp, ttystat env e.utmp.ut_line = some stp →
    -(2 ^ 63) ≤ env.time - stp.st_atime → env.time - stp.st_atime < 2 ^ 63 →
    (0 ≤ env.time - stp.st_atime → e.idle = env.time - stp.st_atime) ∧
    (env.time - stp.st_atime < 0 → e.idle = 0))

/-- Whether the line of an entry begins with `ftp` (the test of w.c:245). -/
def ftpLine (ep : Entry) : Bool := strncmpEq 3 ep.utmp.ut_line "ftp".toList

/-- The condition under which the inner loop of the process scan ends at an
entry: on an `ftp` line the pid of the process is the one the line names; on
any other line the controlling terminal of the process is the terminal of the
entry (as 32-bit device numbers) and its process group is the foreground
process group of that terminal. -/
def Takes (kp : KinfoProc) (ep : Entry) : Prop :=
  if ftpLine ep = true then kp.p_pid = ftpPid ep.utmp.ut_line
  else ep.tdev % 2 ^ 32 = kp.p_tdev % 2 ^ 32 ∧ kp.p__pgid = kp.p_tpgid

/-- What holds of the process of an entry, if one is set: it is neither an
embryo nor a zombie, and it fits the entry in the sense of `Takes`. -/
def KpSpec (ep : Entry) : Prop :=
  ∀ p, ep.kp = some p →
    p.p_psflags &&& (PS_EMBRYO ||| PS_ZOMBIE) = 0 ∧ Takes p ep

/-- The entry after the process scan has handed it the process `kp`: an `ftp`
entry takes it, any other entry takes it when `proc_compare` prefers it. -/
def offered (env : Env) (kp : KinfoProc) (ep : Entry) : Entry :=
  if ftpLine ep = true ∨ env.proc_compare ep.kp kp = true
  then { ep with kp := some kp } else ep

/-- A shell for the examples: pid 100, in the foreground of the terminal with
device number 5. -/
def exProc : KinfoProc := ⟨0, 100, 5, 100, 100, "ksh".toList⟩

/-- A utmp file for the examples: two sessions and a free slot between
them. -/
def exUtmp : List Utmp :=
  [ ⟨"ttyp0".toList, "alice".toList, "host1".toList, 1000⟩,
    ⟨"ttyp1".toList, [], [], 0⟩,
    ⟨"ttyp2".toList, "bob".toList, [], 2000⟩ ]

/-- A system for the examples: every call succeeds, the process table is
empty, the terminals were last used 100 and 1000 seconds ago. -/
def exEnv : Env where
  pledge := fun _ => true
  strerror := "No such file or directory"
  kvm_openfiles := fun _ _ _ => none
  time := 5000
  utmp := some exUtmp
  stat := fun p =>
    if p = "/dev/ttyp0".toList then some ⟨5, 4900⟩
    else if p = "/dev/ttyp2".toList then some ⟨7, 4000⟩
    else none
  kern_consdev := none
  strftime := fun _ => " 1:23AM"
  boottime := some 3600
  loadavg := some ("0.10", "0.20", "0.30")
  kvm_getprocs := .ok []
  winsize := fun _ => some 80
  proc_compare := fun _ _ => true
  gethostname := some "w.example.org".toList
  getaddrinfo := fun _ => none
  getnameinfo := fun _ => none
  pr_attime := fun _ _ => "12:16AM "
  pr_idle := fun _ => "    0 "
  kvm_getargv := fun _ _ => none
  strvis := fun s => s

/-- An entry for the examples: user `name` on line `line`, idle for `idle`
seconds. -/
def exEntry (name line : String) (idle : Int) : Entry :=
  ⟨⟨line.toList, name.toList, [], 0⟩, 0, idle, none⟩

/-- Three sessions in utmp order, idle for 50, 20 and 90 seconds. -/
def exEntries : List Entry :=
  [exEntry "alice" "ttyp0" 50, exEntry "bob" "ttyp1" 20, exEntry "carol" "ttyp2" 90]

end W

namespace Ypwhich

open Libc

/-! ## ypwhich.c -/

/-- Modelled from the spec: `RPC_SUCCESS`, the first enumerator of
`enum clnt_stat` in `<rpc/clnt.h>`, a header that is not among the sources;
the value is the one of that header. -/
def RPC_SUCCESS : Int := 0

/-- Modelled from the spec: `YPERR_YPBIND` ("can't communicate with ypbind"),
one of the library's error codes, defined in `<rpcsvc/ypclnt.h>`, a header
that is not among the sources; the value is the one of that header. -/
def YPERR_YPBIND : Int := 10

/-- Modelled from the spec: `YPBIND_SUCC_VAL` of `enum ypbind_resptype` in
`<rpcsvc/yp.h>`, a header that is not among the sources; the value is the one
of that header. -/
def YPBIND_SUCC_VAL : Int := 1

/-- An IPv4 address (`struct in_addr`), as a number in host byte order. -/
abbrev Addr := Nat

/-- The constant `INADDR_LOOPBACK` (127.0.0.1) of `<netinet/in.h>`. -/
def INADDR_LOOPBACK : Addr := 0x7f000001

/-- A `CLIENT *` handle; 0 is `NULL`. -/
abbrev Client := Nat

/-- The table `ypaliases` (ypwhich.c:51-62): `(alias, name)`. -/
def ypaliases : List (String × String) :=
  [ ("passwd", "passwd.byname"),
    ("group", "group.byname"),
    ("networks", "networks.byaddr"),
    ("hosts", "hosts.byaddr"),
    ("protocols", "protocols.bynumber"),
    ("services", "services.byname"),
    ("aliases", "mail.aliases"),
    ("ethers", "ethers.byname") ]

/-- The answer `struct ypbind_resp` as far as `bind_host` reads it. -/
structure YpbindResp where
  ypbind_status : Int
  ypbind_binding_addr : Addr
deriving DecidableEq, Repr

/-- Everything ypwhich gets from libc, the RPC library and the YP client
library.  A lookup returns its result code and the value it stored through
its result pointer. -/
structure Env where
  yp_get_default_domain : Option String
  clntudp_create : Addr → Option Client
  clnt_call : Client → String → Int × YpbindResp
  gethostbyaddr : Addr → Option String
  inet_ntoa : Addr → String
  getaddrinfo : String → Option Addr
  yperr_string : Int → String
  yp_bind_host : String → Client
  yp_master : String → String → Int × String
  yp_master_host : Client → String → String → Int × String
  yp_maplist : String → Int × List String
  yp_maplist_host : Client → String → Int × List String

/-- The function `usage` (ypwhich.c:66-74). -/
def usage (w : Written) : Outcome :=
  (w.err ("usage: ypwhich [-t] [-d domain] [[-h] host]\n" ++
    "       ypwhich [-t] [-d domain] [-h host] -m [mname]\n" ++
    "       ypwhich -x\n")).exit 1

/-- The function `bind_host` (ypwhich.c:80-131): what it writes and what it
returns. -/
def bind_host (env : Env) (w : Written) (dom : String) (sin : Addr) : Written × Int :=
  match env.clntudp_create sin with
  | none => (w.err "ypwhich: host is not bound to a ypmaster\n", YPERR_YPBIND)
  | some client =>
    let r := (env.clnt_call client dom).1
    let ypbr := (env.clnt_call client dom).2
    if r ≠ RPC_SUCCESS then
      (w.err ("can't clnt_call: " ++ env.yperr_string YPERR_YPBIND ++ "\n"), YPERR_YPBIND)
    else if ypbr.ypbind_status ≠ YPBIND_SUCC_VAL then
      (w.err ("can't yp_bind: Reason: " ++ env.yperr_string ypbr.ypbind_status ++ "\n"), r)
    else
      let ss_addr := ypbr.ypbind_binding_addr
      match env.gethostbyaddr ss_addr with
      | some h_name => (w.out (h_name ++ "\n"), 0)
      | none => (w.out (env.inet_ntoa ss_addr ++ "\n"), 0)

/-- The locals of `main` that the option loop sets. -/
structure Opts where
  domain : String
  host : Option String
  notrans : Bool
  mode : Nat
deriving DecidableEq, Repr

/-- One pass through the body of the `while (getopt ...)` loop of `main`
(ypwhich.c:147-168), after getopt has printed its own diagnostic. -/
def optCase (w : Written) (o : Opts) (g : GetoptRet) : Except Outcome Opts :=
  if g.ch = 'x' then
    .error ((ypaliases.foldl
      (fun acc a => acc.out ("Use \"" ++ a.1 ++ "\" for \"" ++ a.2 ++ "\"\n")) w).exit 0)
  else if g.ch = 'h' then .ok { o with host := g.optarg }
  else if g.ch = 'd' then .ok { o with domain := g.optarg.getD "" }
  else if g.ch = 't' then .ok { o with notrans := true }
  else if g.ch = 'm' then .ok { o with mode := 1 }
  else .error (usage w)

/-- The option loop over the successive returns of getopt. -/
def optLoop (w : Written) (o : Opts) : List GetoptRet → Except Outcome (Written × Opts)
  | [] => .ok (w, o)
  | g :: gs =>
    let w1 := match g.diag with
      | some d => w.err ("ypwhich: " ++ d ++ "\n")
      | none => w
    match optCase w1 o g with
    | .error out => .error out
    | .ok o1 => optLoop w1 o1 gs

/-- The nickname translation loop (ypwhich.c:212-214): it runs over the whole
table and replaces `map` whenever it equals the alias of the current row. -/
def translate (notrans : Bool) (map : String) : String :=
  if notrans then map
  else ypaliases.foldl (fun m a => if m = a.1 then a.2 else m) map

/-- The master lookup: `yp_master_host` on the client when `-h` was given,
`yp_master` otherwise. -/
def master (env : Env) (o : Opts) (client : Client) (map : String) : Int × String :=
  match o.host with
  | some _ => env.yp_master_host client o.domain map
  | none => env.yp_master o.domain map

/-- The client handle of `main`: `yp_bind_host(host, ...)` when `-h` was
given (ypwhich.c:207-208), its initial value `NULL` otherwise. -/
def clientOf (env : Env) (o : Opts) : Client :=
  match o.host with
  | some h => env.yp_bind_host h
  | none => 0

/-- The enumeration loop of the map list (ypwhich.c:246-267). -/
def mapLoop (env : Env) (o : Opts) (client : Client) (w : Written) : List String → Written
  | [] => w
  | map :: y =>
    let r := (master env o client map).1
    let m := (master env o client map).2
    if r = 0 then mapLoop env o client (w.out (map ++ " " ++ m ++ "\n")) y
    else mapLoop env o client
      (w.err ("YP: can't find the master of " ++ map ++ ": Reason: " ++
        env.yperr_string r ++ "\n")) y

/-- The part of `main` after the option loop (ypwhich.c:169-277); `args` is
`argv` after `argv += optind`. -/
def afterOpts (env : Env) (w : Written) (o : Opts) (args : List String) : Outcome :=
  if o.mode = 0 then
    match args with
    | [] =>
      let b := bind_host env w o.domain INADDR_LOOPBACK
      if b.2 ≠ 0 then b.1.exit 1 else b.1.exit 0
    | [a] =>
      match env.getaddrinfo a with
      | none => (w.err ("ypwhich: host " ++ a ++ " unknown\n")).exit 1
      | some addr =>
        let b := bind_host env w o.domain addr
        if b.2 ≠ 0 then b.1.exit 1 else b.1.exit 0
    | _ => usage w
  else if args.length > 1 then usage w
  else
    let client : Client := clientOf env o
    match args.head? with
    | some a =>
      let map := translate o.notrans a
      let r := (master env o client map).1
      let m := (master env o client map).2
      if r = 0 then (w.out (m ++ "\n")).exit 0
      else if r = YPERR_YPBIND then (w.err "ypwhich: not running ypbind\n").exit 1
      else (w.err ("Can't find master for map " ++ map ++ ". Reason: " ++
        env.yperr_string r ++ "\n")).exit 1
    | none =>
      let l := match o.host with
        | some _ => env.yp_maplist_host client o.domain
        | none => env.yp_maplist o.domain
      let ypml := l.2
      let r : Int := 0
      if r = 0 then (mapLoop env o client w ypml).exit 0
      else if r = YPERR_YPBIND then (w.err "ypwhich: not running ypbind\n").exit 1
      else (w.err ("Can't get map list for domain " ++ o.domain ++ ". Reason: " ++
        env.yperr_string r ++ "\n")).exit 1

/-- The program `main` of ypwhich.c; `args` is `argv` without `argv[0]`. -/
def main (env : Env) (args : List String) : Outcome :=
  match env.yp_get_default_domain with
  | none => (Written.empty.err "ypwhich: YP domain name not set\n").exit 1
  | some domain =>
    match optLoop Written.empty ⟨domain, none, false, 0⟩
        (getoptAll "xd:h:mt".toList args).1 with
    | .error out => out
    | .ok (w, o) => afterOpts env w o (getoptAll "xd:h:mt".toList args).2

/-! ### The nickname table as the manual states it -/

/-- The translation of a nickname as documented by `ypwhich -x`: one step
through the table, every other string unchanged. -/
def nicknameSpec (mapname : String) : String :=
  if mapname = "passwd" then "passwd.byname"
  else if mapname = "group" then "group.byname"
  else if mapname = "networks" then "networks.byaddr"
  else if mapname = "hosts" then "hosts.byaddr"
  else if mapname = "protocols" then "protocols.bynumber"
  else if mapname = "services" then "services.byname"
  else if mapname = "aliases" then "mail.aliases"
  else if mapname = "ethers" then "ethers.byname"
  else mapname

/-! ### Example environments -/

/-- The text of `yperr_string` for the examples. -/
def exYperrString (r : Int) : String :=
  if r = 10 then "Can't communicate with ypbind"
  else if r = 2 then "Domain not bound"
  else "YP error " ++ toString r

/-- A site where no ypbind runs on the local host, while the host `server1`
(10.0.0.1) runs one that is bound to `nis1` (10.0.0.2), the master of every
map. -/
def exEnv : Env where
  yp_get_default_domain := some "example.org"
  clntudp_create := fun a => if a = 0x0a000001 then some 7 else none
  clnt_call := fun _ _ => (0, ⟨1, 0x0a000002⟩)
  gethostbyaddr := fun a => if a = 0x0a000002 then some "nis1" else none
  inet_ntoa := fun _ => "10.0.0.2"
  getaddrinfo := fun h => if h = "server1" then some 0x0a000001 else none
  yperr_string := exYperrString
  yp_bind_host := fun _ => 7
  yp_master := fun _ _ => (10, "")
  yp_master_host := fun _ _ _ => (0, "nis1")
  yp_maplist := fun _ => (10, [])
  yp_maplist_host := fun _ _ => (0, ["passwd.byname", "hosts.byaddr"])

/-- A site where the local ypbind runs but answers that the domain is not
bound (`YPBIND_FAIL_VAL`, 2). -/
def exEnvUnbound : Env :=
  { exEnv with
    clntudp_create := fun _ => some 7
    clnt_call := fun _ _ => (0, ⟨2, 0⟩) }

/-! ### Notions used to state the properties of the map enumeration -/

/-- The map list call of `main` (ypwhich.c:237-241): result code and list. -/
def maplist (env : Env) (o : Opts) : Int × List String :=
  match o.host with
  | some _ => env.yp_maplist_host (clientOf env o) o.domain
  | none => env.yp_maplist o.domain

/-- The line printed on stdout for a map whose master lookup returned 0. -/
def masterLine (env : Env) (o : Opts) (map : String) : Option String :=
  if (master env o (clientOf env o) map).1 = 0
  then some (map ++ " " ++ (master env o (clientOf env o) map).2 ++ "\n") else none

/-- The diagnostic printed on stderr for a map whose master lookup failed. -/
def masterDiag (env : Env) (o : Opts) (map : String) : Option String :=
  if (master env o (clientOf env o) map).1 = 0 then none
  else some ("YP: can't find the master of " ++ map ++ ": Reason: " ++
    env.yperr_string (master env o (clientOf env o) map).1 ++ "\n")

/-- A site for the examples where the lookup of one map fails. -/
def exEnvPartial : Env :=
  { exEnv with
    yp_maplist := fun _ => (0, ["passwd.byname", "netid.byname", "hosts.byaddr"])
    yp_master := fun _ m => if m = "netid.byname" then (5, "") else (0, "nis1") }

end Ypwhich


namespace Dwarf

/-! ## dwarf.h: the constants and the name tables -/

/-- One element of an array initializer: an optional designator `[index] =`
and the value, `none` for `NULL`. -/
structure Init where
  designator : Option Nat
  value : Option String
deriving DecidableEq, Repr

/-- An element `"..."` of a name table. -/
def str (s : String) : Init := ⟨none, some s⟩

/-- An element `NULL` of a name table. -/
def NULL : Init := ⟨none, none⟩

/-- An element `[index] = "..."` of a name table. -/
def desig (index : Nat) (s : String) : Init := ⟨some index, some s⟩

/-- Store `v` at index `p` of an array under construction, which grows with
`NULL` elements as needed. -/
def store (arr : List (Option String)) (p : Nat) (v : Option String) :
    List (Option String) :=
  (arr ++ List.replicate (p + 1 - arr.length) none).set p v

/-- The initialization of an array of unknown size by the rest of an
initializer list: `pos` is the index after the element initialized last. -/
def initFrom : List Init → Nat → List (Option String) → List (Option String)
  | [], _, arr => arr
  | i :: rest, pos, arr =>
    initFrom rest (i.designator.getD pos + 1) (store arr (i.designator.getD pos) i.value)

/-- The array `const char *names[] = { NAMES }` that a name table macro
initializes: an element without designator follows the previous one, an
element with designator goes to its index, elements never named are `NULL`,
and the size is the largest index plus one. -/
def arrayOf (inits : List Init) : List (Option String) := initFrom inits 0 []

/-- The name that the header defines first with the value `v`, if any. -/
def nameOf (defines : List (String × Nat)) (v : Nat) : Option String :=
  (defines.find? (fun d => d.2 == v)).map (fun d => d.1)

/-- The `#define DW_TAG_*` lines of dwarf.h, in the order of the header: name and
value. -/
def DW_TAG : List (String × Nat) :=
  [ ("DW_TAG_array_type", 0x01),
    ("DW_TAG_class_type", 0x02),
    ("DW_TAG_entry_point", 0x03),
    ("DW_TAG_enumeration_type", 0x04),
    ("DW_TAG_formal_parameter", 0x05),
    ("DW_TAG_imported_declaration", 0x08),
    ("DW_TAG_label", 0x0a),
    ("DW_TAG_lexical_block", 0x0b),
    ("DW_TAG_member", 0x0d),
    ("DW_TAG_pointer_type", 0x0f),
    ("DW_TAG_reference_type", 0x10),
    ("DW_TAG_compile_unit", 0x11),
    ("DW_TAG_string_type", 0x12),
    ("DW_TAG_structure_type", 0x13),
    ("DW_TAG_subroutine_type", 0x15),
    ("DW_TAG_typedef", 0x16),
    ("DW_TAG_union_type", 0x17),
    ("DW_TAG_unspecified_parameters", 0x18),
    ("DW_TAG_variant", 0x19),
    ("DW_TAG_common_block", 0x1a),
    ("DW_TAG_common_inclusion", 0x1b),
    ("DW_TAG_inheritance", 0x1c),
    ("DW_TAG_inlined_subroutine", 0x1d),
    ("DW_TAG_module", 0x1e),
    ("DW_TAG_ptr_to_member_type", 0x1f),
    ("DW_TAG_set_type", 0x20),
    ("DW_TAG_subrange_type", 0x21),
    ("DW_TAG_with_stmt", 0x22),
    ("DW_TAG_access_declaration", 0x23),
    ("DW_TAG_base_type", 0x24),
    ("DW_TAG_catch_block", 0x25),
    ("DW_TAG_const_type", 0x26),
    ("DW_TAG_constant", 0x27),
    ("DW_TAG_enumerator", 0x28),
    ("DW_TAG_friend", 0x2a),
    ("DW_TAG_namelist", 0x2b),
    ("DW_TAG_namelist_item", 0x2c),
    ("DW_TAG_packed_type", 0x2d),
    ("DW_TAG_subprogram", 0x2e),
    ("DW_TAG_template_type_parameter", 0x2f),
    ("DW_TAG_template_value_parameter", 0x30),
    ("DW_TAG_thrown_type", 0x31),
    ("DW_TAG_try_block", 0x32),
    ("DW_TAG_variant_part", 0x33),
    ("DW_TAG_variable", 0x34),
    ("DW_TAG_volatile_type", 0x35),
    ("DW_TAG_dwarf_procedure", 0x36),
    ("DW_TAG_restrict_type", 0x37),
    ("DW_TAG_interface_type", 0x38),
    ("DW_TAG_namespace", 0x39),
    ("DW_TAG_imported_module", 0x3a),
    ("DW_TAG_unspecified_type", 0x3b),
    ("DW_TAG_partial_unit", 0x3c),
    ("DW_TAG_imported_unit", 0x3d),
    ("DW_TAG_condition", 0x3f),
    ("DW_TAG_shared_type", 0x40),
    ("DW_TAG_type_unit", 0x41),
    ("DW_TAG_rvalue_reference_type", 0x42),
    ("DW_TAG_template_alias", 0x43),
    ("DW_TAG_lo_user", 0x4080),
    ("DW_TAG_hi_user", 0xffff),
    ("DW_TAG_format_label", 0x4101),
    ("DW_TAG_function_template", 0x4102),
    ("DW_TAG_class_template", 0x4103),
    ("DW_TAG_GNU_BINCL", 0x4104),
    ("DW_TAG_GNU_EINCL", 0x4105),
    ("DW_TAG_GNU_template_template_parameter", 0x4106),
    ("DW_TAG_GNU_template_template_param", 0x4106),
    ("DW_TAG_GNU_template_parameter_pack", 0x4107),
    ("DW_TAG_GNU_formal_parameter_pack", 0x4108),
    ("DW_TAG_GNU_call_site", 0x4109),
    ("DW_TAG_GNU_call_site_parameter", 0x410a) ]

/-- The macro `DW_TAG_NAMES` of dwarf.h: the elements of the initializer list. -/
def DW_TAG_NAMES : List Init :=
  [ str "DW_TAG_array_type",
    str "DW_TAG_class_type",
    str "DW_TAG_entry_point",
    str "DW_TAG_enumeration_type",
    str "DW_TAG_formal_parameter",
    NULL,
    NULL,
    str "DW_TAG_imported_declaration",
    NULL,
    str "DW_TAG_label",
    str "DW_TAG_lexical_block",
    NULL,
    str "DW_TAG_member",
    NULL,
    str "DW_TAG_pointer_type",
    str "DW_TAG_reference_type",
    str "DW_TAG_compile_unit",
    str "DW_TAG_string_type",
    str "DW_TAG_structure_type",
    NULL,
    str "DW_TAG_subroutine_type",
    str "DW_TAG_typedef",
    str "DW_TAG_union_type",
    str "DW_TAG_unspecified_parameters",
    str "DW_TAG_variant",
    str "DW_TAG_common_block",
    str "DW_TAG_common_inclusion",
    str "DW_TAG_inheritance",
    str "DW_TAG_inlined_subroutine",
    str "DW_TAG_module",
    str "DW_TAG_ptr_to_member_type",
    str "DW_TAG_set_type",
    str "DW_TAG_subrange_type",
    str "DW_TAG_with_stmt",
    str "DW_TAG_access_declaration",
    str "DW_TAG_base_type",
    str "DW_TAG_catch_block",
    str "DW_TAG_const_type",
    str "DW_TAG_constant",
    str "DW_TAG_enumerator",
    NULL,
    str "DW_TAG_friend",
    str "DW_TAG_namelist",
    str "DW_TAG_namelist_item",
    str "DW_TAG_packed_type",
    str "DW_TAG_subprogram",
    str "DW_TAG_template_type_parameter",
    str "DW_TAG_template_value_parameter",
    str "DW_TAG_thrown_type",
    str "DW_TAG_try_block",
    str "DW_TAG_variant_part",
    str "DW_TAG_variable",
    str "DW_TAG_volatile_type",
    str "DW_TAG_dwarf_procedure",
    str "DW_TAG_restrict_type",
    str "DW_TAG_interface_type",
    str "DW_TAG_namespace",
    str "DW_TAG_imported_module",
    str "DW_TAG_unspecified_type",
    str "DW_TAG_partial_unit",
    str "DW_TAG_imported_unit",
    NULL,
    str "DW_TAG_condition",
    str "DW_TAG_shared_type",
    str "DW_TAG_type_unit",
    str "DW_TAG_rvalue_reference_type",
    str "DW_TAG_template_alias" ]

/-- The `#define DW_AT_*` lines of dwarf.h, in the order of the header: name and
value. -/
def DW_AT : List (String × Nat) :=
  [ ("DW_AT_sibling", 0x01),
    ("DW_AT_location", 0x02),
    ("DW_AT_name", 0x03),
    ("DW_AT_ordering", 0x09),
    ("DW_AT_subscr_data", 0x0a),
    ("DW_AT_byte_size", 0x0b),
    ("DW_AT_bit_offset", 0x0c),
    ("DW_AT_bit_size", 0x0d),
    ("DW_AT_element_list", 0x0f),
    ("DW_AT_stmt_list", 0x10),
    ("DW_AT_low_pc", 0x11),
    ("DW_AT_high_pc", 0x12),
    ("DW_AT_language", 0x13),
    ("DW_AT_member", 0x14),
    ("DW_AT_discr", 0x15),
    ("DW_AT_discr_value", 0x16),
    ("DW_AT_visibility", 0x17),
    ("DW_AT_import", 0x18),
    ("DW_AT_string_length", 0x19),
    ("DW_AT_common_reference", 0x1a),
    ("DW_AT_comp_dir", 0x1b),
    ("DW_AT_const_value", 0x1c),
    ("DW_AT_containing_type", 0x1d),
    ("DW_AT_default_value", 0x1e),
    ("DW_AT_inline", 0x20),
    ("DW_AT_is_optional", 0x21),
    ("DW_AT_lower_bound", 0x22),
    ("DW_AT_producer", 0x25),
    ("DW_AT_prototyped", 0x27),
    ("DW_AT_return_addr", 0x2a),
    ("DW_AT_start_scope", 0x2c),
    ("DW_AT_bit_stride", 0x2e),
    ("DW_AT_stride_size", 0x2e),
    ("DW_AT_upper_bound", 0x2f),
    ("DW_AT_abstract_origin", 0x31),
    ("DW_AT_accessibility", 0x32),
    ("DW_AT_address_class", 0x33),
    ("DW_AT_artificial", 0x34),
    ("DW_AT_base_types", 0x35),
    ("DW_AT_calling_convention", 0x36),
    ("DW_AT_count", 0x37),
    ("DW_AT_data_member_location", 0x38),
    ("DW_AT_decl_column", 0x39),
    ("DW_AT_decl_file", 0x3a),
    ("DW_AT_decl_line", 0x3b),
    ("DW_AT_declaration", 0x3c),
    ("DW_AT_discr_list", 0x3d),
    ("DW_AT_encoding", 0x3e),
    ("DW_AT_external", 0x3f),
    ("DW_AT_frame_base", 0x40),
    ("DW_AT_friend", 0x41),
    ("DW_AT_identifier_case", 0x42),
    ("DW_AT_macro_info", 0x43),
    ("DW_AT_namelist_item", 0x44),
    ("DW_AT_priority", 0x45),
    ("DW_AT_segment", 0x46),
    ("DW_AT_specification", 0x47),
    ("DW_AT_static_link", 0x48),
    ("DW_AT_type", 0x49),
    ("DW_AT_use_location", 0x4a),
    ("DW_AT_variable_parameter", 0x4b),
    ("DW_AT_virtuality", 0x4c),
    ("DW_AT_vtable_elem_location", 0x4d),
    ("DW_AT_allocated", 0x4e),
    ("DW_AT_associated", 0x4f),
    ("DW_AT_data_location", 0x50),
    ("DW_AT_byte_stride", 0x51),
    ("DW_AT_entry_pc", 0x52),
    ("DW_AT_use_UTF8", 0x53),
    ("DW_AT_extension", 0x54),
    ("DW_AT_ranges", 0x55),
    ("DW_AT_trampoline", 0x56),
    ("DW_AT_call_column", 0x57),
    ("DW_AT_call_file", 0x58),
    ("DW_AT_call_line", 0x59),
    ("DW_AT_description", 0x5a),
    ("DW_AT_binary_scale", 0x5b),
    ("DW_AT_decimal_scale", 0x5c),
    ("DW_AT_small", 0x5d),
    ("DW_AT_decimal_sign", 0x5e),
    ("DW_AT_digit_count", 0x5f),
    ("DW_AT_picture_string", 0x60),
    ("DW_AT_mutable", 0x61),
    ("DW_AT_threads_scaled", 0x62),
    ("DW_AT_explicit", 0x63),
    ("DW_AT_object_pointer", 0x64),
    ("DW_AT_endianity", 0x65),
    ("DW_AT_elemental", 0x66),
    ("DW_AT_pure", 0x67),
    ("DW_AT_recursive", 0x68),
    ("DW_AT_signature", 0x69),
    ("DW_AT_main_subprogram", 0x6a),
    ("DW_AT_data_bit_offset", 0x6b),
    ("DW_AT_const_expr", 0x6c),
    ("DW_AT_enum_class", 0x6d),
    ("DW_AT_linkage_name", 0x6e),
    ("DW_AT_noreturn", 0x87),
    ("DW_AT_lo_user", 0x2000),
    ("DW_AT_hi_user", 0x3fff),
    ("DW_AT_sf_names", 0x2101),
    ("DW_AT_src_info", 0x2102),
    ("DW_AT_mac_info", 0x2103),
    ("DW_AT_src_coords", 0x2104),
    ("DW_AT_body_begin", 0x2105),
    ("DW_AT_body_end", 0x2106),
    ("DW_AT_GNU_vector", 0x2107),
    ("DW_AT_GNU_guarded_by", 0x2108),
    ("DW_AT_GNU_pt_guarded_by", 0x2109),
    ("DW_AT_GNU_guarded", 0x210a),
    ("DW_AT_GNU_pt_guarded", 0x210b),
    ("DW_AT_GNU_locks_excluded", 0x210c),
    ("DW_AT_GNU_exclusive_locks_required", 0x210d),
    ("DW_AT_GNU_shared_locks_required", 0x210e),
    ("DW_AT_GNU_odr_signature", 0x210f),
    ("DW_AT_GNU_template_name", 0x2110),
    ("DW_AT_GNU_call_site_value", 0x2111),
    ("DW_AT_GNU_call_site_data_value", 0x2112),
    ("DW_AT_GNU_call_site_target", 0x2113),
    ("DW_AT_GNU_call_site_target_clobbered", 0x2114),
    ("DW_AT_GNU_tail_call", 0x2115),
    ("DW_AT_GNU_all_tail_call_sites", 0x2116),
    ("DW_AT_GNU_all_call_sites", 0x2117),
    ("DW_AT_GNU_all_source_call_sites", 0x2118) ]

/-- The macro `DW_AT_NAMES` of dwarf.h: the elements of the initializer list. -/
def DW_AT_NAMES : List Init :=
  [ str "DW_AT_sibling",
    str "DW_AT_location",
    str "DW_AT_name",
    NULL,
    NULL,
    NULL,
    NULL,
    NULL,
    str "DW_AT_ordering",
    str "DW_AT_subscr_data",
    str "DW_AT_byte_size",
    str "DW_AT_bit_offset",
    str "DW_AT_bit_size",
    NULL,
    str "DW_AT_element_list",
    str "DW_AT_stmt_list",
    str "DW_AT_low_pc",
    str "DW_AT_high_pc",
    str "DW_AT_language",
    str "DW_AT_member",
    str "DW_AT_discr",
    str "DW_AT_discr_value",
    str "DW_AT_visibility",
    str "DW_AT_import",
    str "DW_AT_string_length",
    str "DW_AT_common_reference",
    str "DW_AT_comp_dir",
    str "DW_AT_const_value",
    str "DW_AT_containing_type",
    str "DW_AT_default_value",
    NULL,
    str "DW_AT_inline",
    str "DW_AT_is_optional",
    str "DW_AT_lower_bound",
    NULL,
    NULL,
    str "DW_AT_producer",
    NULL,
    str "DW_AT_prototyped",
    NULL,
    NULL,
    str "DW_AT_return_addr",
    NULL,
    str "DW_AT_start_scope",
    NULL,
    str "DW_AT_bit_stride",
    str "DW_AT_upper_bound",
    NULL,
    str "DW_AT_abstract_origin",
    str "DW_AT_accessibility",
    str "DW_AT_address_class",
    str "DW_AT_artificial",
    str "DW_AT_base_types",
    str "DW_AT_calling_convention",
    str "DW_AT_count",
    str "DW_AT_data_member_location",
    str "DW_AT_decl_column",
    str "DW_AT_decl_file",
    str "DW_AT_decl_line",
    str "DW_AT_declaration",
    str "DW_AT_discr_list",
    str "DW_AT_encoding",
    str "DW_AT_external",
    str "DW_AT_frame_base",
    str "DW_AT_friend",
    str "DW_AT_identifier_case",
    str "DW_AT_macro_info",
    str "DW_AT_namelist_item",
    str "DW_AT_priority",
    str "DW_AT_segment",
    str "DW_AT_specification",
    str "DW_AT_static_link",
    str "DW_AT_type",
    str "DW_AT_use_location",
    str "DW_AT_variable_parameter",
    str "DW_AT_virtuality",
    str "DW_AT_vtable_elem_location",
    str "DW_AT_allocated",
    str "DW_AT_associated",
    str "DW_AT_data_location",
    str "DW_AT_byte_stride",
    str "DW_AT_entry_pc",
    str "DW_AT_use_UTF8",
    str "DW_AT_extension",
    str "DW_AT_ranges",
    str "DW_AT_trampoline",
    str "DW_AT_call_column",
    str "DW_AT_call_file",
    str "DW_AT_call_line",
    str "DW_AT_description",
    str "DW_AT_binary_scale",
    str "DW_AT_decimal_scale",
    str "DW_AT_small",
    str "DW_AT_decimal_sign",
    str "DW_AT_digit_count",
    str "DW_AT_picture_string",
    str "DW_AT_mutable",
    str "DW_AT_threads_scaled",
    str "DW_AT_explicit",
    str "DW_AT_object_pointer",
    str "DW_AT_endianity",
    str "DW_AT_elemental",
    str "DW_AT_pure",
    str "DW_AT_recursive",
    str "DW_AT_signature",
    str "DW_AT_main_subprogram",
    str "DW_AT_data_bit_offset",
    str "DW_AT_const_expr",
    str "DW_AT_enum_class",
    str "DW_AT_linkage_name",
    desig (0x87 - 1) "DW_AT_noreturn" ]

/-- The `#define DW_FORM_*` lines of dwarf.h, in the order of the header: name and
value. -/
def DW_FORM : List (String × Nat) :=
  [ ("DW_FORM_addr", 0x01),
    ("DW_FORM_block2", 0x03),
    ("DW_FORM_block4", 0x04),
    ("DW_FORM_data2", 0x05),
    ("DW_FORM_data4", 0x06),
    ("DW_FORM_data8", 0x07),
    ("DW_FORM_string", 0x08),
    ("DW_FORM_block", 0x09),
    ("DW_FORM_block1", 0x0a),
    ("DW_FORM_data1", 0x0b),
    ("DW_FORM_flag", 0x0c),
    ("DW_FORM_sdata", 0x0d),
    ("DW_FORM_strp", 0x0e),
    ("DW_FORM_udata", 0x0f),
    ("DW_FORM_ref_addr", 0x10),
    ("DW_FORM_ref1", 0x11),
    ("DW_FORM_ref2", 0x12),
    ("DW_FORM_ref4", 0x13),
    ("DW_FORM_ref8", 0x14),
    ("DW_FORM_ref_udata", 0x15),
    ("DW_FORM_indirect", 0x16),
    ("DW_FORM_sec_offset", 0x17),
    ("DW_FORM_exprloc", 0x18),
    ("DW_FORM_flag_present", 0x19),
    ("DW_FORM_ref_sig8", 0x20),
    ("DW_FORM_GNU_ref_alt", 0x1f20),
    ("DW_FORM_GNU_strp_alt", 0x1f21) ]

/-- The macro `DW_FORM_NAMES` of dwarf.h: the elements of the initializer list. -/
def DW_FORM_NAMES : List Init :=
  [ str "DW_FORM_addr",
    NULL,
    str "DW_FORM_block2",
    str "DW_FORM_block4",
    str "DW_FORM_data2",
    str "DW_FORM_data4",
    str "DW_FORM_data8",
    str "DW_FORM_string",
    str "DW_FORM_block",
    str "DW_FORM_block1",
    str "DW_FORM_data1",
    str "DW_FORM_flag",
    str "DW_FORM_sdata",
    str "DW_FORM_strp",
    str "DW_FORM_udata",
    str "DW_FORM_ref_addr",
    str "DW_FORM_ref1",
    str "DW_FORM_ref2",
    str "DW_FORM_ref4",
    str "DW_FORM_ref8",
    str "DW_FORM_ref_udata",
    str "DW_FORM_indirect",
    str "DW_FORM_sec_offset",
    str "DW_FORM_exprloc",
    str "DW_FORM_flag_present",
    NULL,
    NULL,
    NULL,
    NULL,
    NULL,
    NULL,
    str "DW_FORM_ref_sig8" ]

/-- The `#define DW_OP_*` lines of dwarf.h, in the order of the header: name and
value. -/
def DW_OP : List (String × Nat) :=
  [ ("DW_OP_addr", 0x03),
    ("DW_OP_deref", 0x06),
    ("DW_OP_const1u", 0x08),
    ("DW_OP_const1s", 0x09),
    ("DW_OP_const2u", 0x0a),
    ("DW_OP_const2s", 0x0b),
    ("DW_OP_const4u", 0x0c),
    ("DW_OP_const4s", 0x0d),
    ("DW_OP_const8u", 0x0e),
    ("DW_OP_const8s", 0x0f),
    ("DW_OP_constu", 0x10),
    ("DW_OP_consts", 0x11),
    ("DW_OP_dup", 0x12),
    ("DW_OP_drop", 0x13),
    ("DW_OP_over", 0x14),
    ("DW_OP_pick", 0x15),
    ("DW_OP_swap", 0x16),
    ("DW_OP_rot", 0x17),
    ("DW_OP_xderef", 0x18),
    ("DW_OP_abs", 0x19),
    ("DW_OP_and", 0x1a),
    ("DW_OP_div", 0x1b),
    ("DW_OP_minus", 0x1c),
    ("DW_OP_mod", 0x1d),
    ("DW_OP_mul", 0x1e),
    ("DW_OP_neg", 0x1f),
    ("DW_OP_not", 0x20),
    ("DW_OP_or", 0x21),
    ("DW_OP_plus", 0x22),
    ("DW_OP_plus_uconst", 0x23),
    ("DW_OP_shl", 0x24),
    ("DW_OP_shr", 0x25),
    ("DW_OP_shra", 0x26),
    ("DW_OP_xor", 0x27),
    ("DW_OP_bra", 0x28),
    ("DW_OP_eq", 0x29),
    ("DW_OP_ge", 0x2a),
    ("DW_OP_gt", 0x2b),
    ("DW_OP_le", 0x2c),
    ("DW_OP_lt", 0x2d),
    ("DW_OP_ne", 0x2e),
    ("DW_OP_skip", 0x2f),
    ("DW_OP_lit0", 0x30),
    ("DW_OP_lit1", 0x31),
    ("DW_OP_lit2", 0x32),
    ("DW_OP_lit3", 0x33),
    ("DW_OP_lit4", 0x34),
    ("DW_OP_lit5", 0x35),
    ("DW_OP_lit6", 0x36),
    ("DW_OP_lit7", 0x37),
    ("DW_OP_lit8", 0x38),
    ("DW_OP_lit9", 0x39),
    ("DW_OP_lit10", 0x3a),
    ("DW_OP_lit11", 0x3b),
    ("DW_OP_lit12", 0x3c),
    ("DW_OP_lit13", 0x3d),
    ("DW_OP_lit14", 0x3e),
    ("DW_OP_lit15", 0x3f),
    ("DW_OP_lit16", 0x40),
    ("DW_OP_lit17", 0x41),
    ("DW_OP_lit18", 0x42),
    ("DW_OP_lit19", 0x43),
    ("DW_OP_lit20", 0x44),
    ("DW_OP_lit21", 0x45),
    ("DW_OP_lit22", 0x46),
    ("DW_OP_lit23", 0x47),
    ("DW_OP_lit24", 0x48),
    ("DW_OP_lit25", 0x49),
    ("DW_OP_lit26", 0x4a),
    ("DW_OP_lit27", 0x4b),
    ("DW_OP_lit28", 0x4c),
    ("DW_OP_lit29", 0x4d),
    ("DW_OP_lit30", 0x4e),
    ("DW_OP_lit31", 0x4f),
    ("DW_OP_reg0", 0x50),
    ("DW_OP_reg1", 0x51),
    ("DW_OP_reg2", 0x52),
    ("DW_OP_reg3", 0x53),
    ("DW_OP_reg4", 0x54),
    ("DW_OP_reg5", 0x55),
    ("DW_OP_reg6", 0x56),
    ("DW_OP_reg7", 0x57),
    ("DW_OP_reg8", 0x58),
    ("DW_OP_reg9", 0x59),
    ("DW_OP_reg10", 0x5a),
    ("DW_OP_reg11", 0x5b),
    ("DW_OP_reg12", 0x5c),
    ("DW_OP_reg13", 0x5d),
    ("DW_OP_reg14", 0x5e),
    ("DW_OP_reg15", 0x5f),
    ("DW_OP_reg16", 0x60),
    ("DW_OP_reg17", 0x61),
    ("DW_OP_reg18", 0x62),
    ("DW_OP_reg19", 0x63),
    ("DW_OP_reg20", 0x64),
    ("DW_OP_reg21", 0x65),
    ("DW_OP_reg22", 0x66),
    ("DW_OP_reg23", 0x67),
    ("DW_OP_reg24", 0x68),
    ("DW_OP_reg25", 0x69),
    ("DW_OP_reg26", 0x6a),
    ("DW_OP_reg27", 0x6b),
    ("DW_OP_reg28", 0x6c),
    ("DW_OP_reg29", 0x6d),
    ("DW_OP_reg30", 0x6e),
    ("DW_OP_reg31", 0x6f),
    ("DW_OP_breg0", 0x70),
    ("DW_OP_breg1", 0x71),
    ("DW_OP_breg2", 0x72),
    ("DW_OP_breg3", 0x73),
    ("DW_OP_breg4", 0x74),
    ("DW_OP_breg5", 0x75),
    ("DW_OP_breg6", 0x76),
    ("DW_OP_breg7", 0x77),
    ("DW_OP_breg8", 0x78),
    ("DW_OP_breg9", 0x79),
    ("DW_OP_breg10", 0x7a),
    ("DW_OP_breg11", 0x7b),
    ("DW_OP_breg12", 0x7c),
    ("DW_OP_breg13", 0x7d),
    ("DW_OP_breg14", 0x7e),
    ("DW_OP_breg15", 0x7f),
    ("DW_OP_breg16", 0x80),
    ("DW_OP_breg17", 0x81),
    ("DW_OP_breg18", 0x82),
    ("DW_OP_breg19", 0x83),
    ("DW_OP_breg20", 0x84),
    ("DW_OP_breg21", 0x85),
    ("DW_OP_breg22", 0x86),
    ("DW_OP_breg23", 0x87),
    ("DW_OP_breg24", 0x88),
    ("DW_OP_breg25", 0x89),
    ("DW_OP_breg26", 0x8a),
    ("DW_OP_breg27", 0x8b),
    ("DW_OP_breg28", 0x8c),
    ("DW_OP_breg29", 0x8d),
    ("DW_OP_breg30", 0x8e),
    ("DW_OP_breg31", 0x8f),
    ("DW_OP_regx", 0x90),
    ("DW_OP_fbreg", 0x91),
    ("DW_OP_bregx", 0x92),
    ("DW_OP_piece", 0x93),
    ("DW_OP_deref_size", 0x94),
    ("DW_OP_xderef_size", 0x95),
    ("DW_OP_nop", 0x96),
    ("DW_OP_push_object_address", 0x97),
    ("DW_OP_call2", 0x98),
    ("DW_OP_call4", 0x99),
    ("DW_OP_call_ref", 0x9a),
    ("DW_OP_form_tls_address", 0x9b),
    ("DW_OP_call_frame_cfa", 0x9c),
    ("DW_OP_bit_piece", 0x9d),
    ("DW_OP_implicit_value", 0x9e),
    ("DW_OP_stack_value", 0x9f),
    ("DW_OP_lo_user", 0xe0),
    ("DW_OP_hi_user", 0xff),
    ("DW_OP_GNU_push_tls_address", 0xe0),
    ("DW_OP_GNU_uninit", 0xf0),
    ("DW_OP_GNU_encoded_addr", 0xf1),
    ("DW_OP_GNU_implicit_pointer", 0xf2),
    ("DW_OP_GNU_entry_value", 0xf3),
    ("DW_OP_GNU_const_type", 0xf4),
    ("DW_OP_GNU_regval_type", 0xf5),
    ("DW_OP_GNU_deref_type", 0xf6),
    ("DW_OP_GNU_convert", 0xf7),
    ("DW_OP_GNU_reinterpret", 0xf9),
    ("DW_OP_GNU_parameter_ref", 0xfa),
    ("DW_OP_GNU_addr_index", 0xfb),
    ("DW_OP_GNU_const_index", 0xfc) ]

/-- The macro `DW_OP_NAMES` of dwarf.h: the elements of the initializer list. -/
def DW_OP_NAMES : List Init :=
  [ NULL,
    NULL,
    str "DW_OP_addr",
    NULL,
    NULL,
    str "DW_OP_deref",
    NULL,
    str "DW_OP_const1u",
    str "DW_OP_const1s",
    str "DW_OP_const2u",
    str "DW_OP_const2s",
    str "DW_OP_const4u",
    str "DW_OP_const4s",
    str "DW_OP_const8u",
    str "DW_OP_const8s",
    str "DW_OP_constu",
    str "DW_OP_consts",
    str "DW_OP_dup",
    str "DW_OP_drop",
    str "DW_OP_over",
    str "DW_OP_pick",
    str "DW_OP_swap",
    str "DW_OP_rot",
    str "DW_OP_xderef",
    str "DW_OP_abs",
    str "DW_OP_and",
    str "DW_OP_div",
    str "DW_OP_minus",
    str "DW_OP_mod",
    str "DW_OP_mul",
    str "DW_OP_neg",
    str "DW_OP_not",
    str "DW_OP_or",
    str "DW_OP_plus",
    str "DW_OP_plus_uconst",
    str "DW_OP_shl",
    str "DW_OP_shr",
    str "DW_OP_shra",
    str "DW_OP_xor",
    str "DW_OP_bra",
    str "DW_OP_eq",
    str "DW_OP_ge",
    str "DW_OP_gt",
    str "DW_OP_le",
    str "DW_OP_lt",
    str "DW_OP_ne",
    str "DW_OP_skip",
    str "DW_OP_lit0",
    str "DW_OP_lit1",
    str "DW_OP_lit2",
    str "DW_OP_lit3",
    str "DW_OP_lit4",
    str "DW_OP_lit5",
    str "DW_OP_lit6",
    str "DW_OP_lit7",
    str "DW_OP_lit8",
    str "DW_OP_lit9",
    str "DW_OP_lit10",
    str "DW_OP_lit11",
    str "DW_OP_lit12",
    str "DW_OP_lit13",
    str "DW_OP_lit14",
    str "DW_OP_lit15",
    str "DW_OP_lit16",
    str "DW_OP_lit17",
    str "DW_OP_lit18",
    str "DW_OP_lit19",
    str "DW_OP_lit20",
    str "DW_OP_lit21",
    str "DW_OP_lit22",
    str "DW_OP_lit23",
    str "DW_OP_lit24",
    str "DW_OP_lit25",
    str "DW_OP_lit26",
    str "DW_OP_lit27",
    str "DW_OP_lit28",
    str "DW_OP_lit29",
    str "DW_OP_lit30",
    str "DW_OP_lit31",
    str "DW_OP_reg0",
    str "DW_OP_reg1",
    str "DW_OP_reg2",
    str "DW_OP_reg3",
    str "DW_OP_reg4",
    str "DW_OP_reg5",
    str "DW_OP_reg6",
    str "DW_OP_reg7",
    str "DW_OP_reg8",
    str "DW_OP_reg9",
    str "DW_OP_reg10",
    str "DW_OP_reg11",
    str "DW_OP_reg12",
    str "DW_OP_reg13",
    str "DW_OP_reg14",
    str "DW_OP_reg15",
    str "DW_OP_reg16",
    str "DW_OP_reg17",
    str "DW_OP_reg18",
    str "DW_OP_reg19",
    str "DW_OP_reg20",
    str "DW_OP_reg21",
    str "DW_OP_reg22",
    str "DW_OP_reg23",
    str "DW_OP_reg24",
    str "DW_OP_reg25",
    str "DW_OP_reg26",
    str "DW_OP_reg27",
    str "DW_OP_reg28",
    str "DW_OP_reg29",
    str "DW_OP_reg30",
    str "DW_OP_reg31",
    str "DW_OP_breg0",
    str "DW_OP_breg1",
    str "DW_OP_breg2",
    str "DW_OP_breg3",
    str "DW_OP_breg4",
    str "DW_OP_breg5",
    str "DW_OP_breg6",
    str "DW_OP_breg7",
    str "DW_OP_breg8",
    str "DW_OP_breg9",
    str "DW_OP_breg10",
    str "DW_OP_breg11",
    str "DW_OP_breg12",
    str "DW_OP_breg13",
    str "DW_OP_breg14",
    str "DW_OP_breg15",
    str "DW_OP_breg16",
    str "DW_OP_breg17",
    str "DW_OP_breg18",
    str "DW_OP_breg19",
    str "DW_OP_breg20",
    str "DW_OP_breg21",
    str "DW_OP_breg22",
    str "DW_OP_breg23",
    str "DW_OP_breg24",
    str "DW_OP_breg25",
    str "DW_OP_breg26",
    str "DW_OP_breg27",
    str "DW_OP_breg28",
    str "DW_OP_breg29",
    str "DW_OP_breg30",
    str "DW_OP_breg31",
    str "DW_OP_regx",
    str "DW_OP_fbreg",
    str "DW_OP_bregx",
    str "DW_OP_piece",
    str "DW_OP_deref_size",
    str "DW_OP_xderef_size",
    str "DW_OP_nop",
    str "DW_OP_push_object_address",
    str "DW_OP_call2",
    str "DW_OP_call4",
    str "DW_OP_call_ref",
    str "DW_OP_form_tls_address",
    str "DW_OP_call_frame_cfa",
    str "DW_OP_bit_piece",
    str "DW_OP_implicit_value",
    str "DW_OP_stack_value" ]

end Dwarf

/-! # Theorems -/

namespace Libc

/-! ### Lemmas on getopt -/

theorem getoptWord_diag (options : List Char) (next : Option String) (place : List Char) :
    DiagIsError (getoptWord options next place).1 := by
  induction place with
  | nil => intro g hg; simp [getoptWord] at hg
  | cons c place ih =>
    intro g hg hd
    unfold getoptWord at hg
    split at hg
    · split at hg
      · simp at hg
      · simp only [List.mem_cons] at hg
        rcases hg with h | h
        · subst h; rfl
        · exact ih g h hd
    · split at hg
      · split at hg
        · simp at hg; subst hg; simp at hd
        · split at hg
          · simp at hg; subst hg; simp at hd
          · split at hg
            · simp at hg; subst hg; simp at hd
            · simp only [List.mem_singleton] at hg
              subst hg
              unfold badArg at hd ⊢
              split
              · rename_i h; simp [h] at hd
              · rfl
      · simp only [List.mem_cons] at hg
        rcases hg with h | h
        · subst h; simp at hd
        · exact ih g h hd

theorem DiagIsError.append {a b : List GetoptRet} (ha : DiagIsError a) (hb : DiagIsError b) :
    DiagIsError (a ++ b) := by
  intro g hg
  rcases List.mem_append.mp hg with h | h
  · exact ha g h
  · exact hb g h

theorem getoptAll_diag_aux (options : List Char) (n : Nat) :
    ∀ args : List String, args.length ≤ n → DiagIsError (getoptAll options args).1 := by
  induction n with
  | zero =>
    intro args h
    cases args with
    | nil => intro g hg; simp [getoptAll] at hg
    | cons a l => simp at h
  | succ n ih =>
    intro args h
    match args, h with
    | [], _ => intro g hg; simp [getoptAll] at hg
    | [w], _ =>
      unfold getoptAll
      have := getoptWord_diag options none
      split
      · split
        · split
          · rename_i heq; have h2 := this ['-']; rw [heq] at h2; exact h2
          · rename_i heq; have h2 := this ['-']; rw [heq] at h2; exact h2
        · intro g hg; simp at hg
      · split
        · intro g hg; simp at hg
        · rename_i c cs _ _
          split
          · rename_i heq; have h2 := this (c :: cs); rw [heq] at h2; exact h2
          · rename_i heq; have h2 := this (c :: cs); rw [heq] at h2; exact h2
      · intro g hg; simp at hg
    | w :: a :: rest, h =>
      unfold getoptAll
      have := getoptWord_diag options (some a)
      have ih1 := ih rest (by simp at h; omega)
      have ih2 := ih (a :: rest) (by simp at h ⊢; omega)
      split
      · split
        · split
          · rename_i heq; have h2 := this ['-']; rw [heq] at h2; exact h2
          · rename_i heq; have h2 := this ['-']; rw [heq] at h2; exact h2.append ih1
          · rename_i heq; have h2 := this ['-']; rw [heq] at h2; exact h2.append ih2
        · intro g hg; simp at hg
      · split
        · intro g hg; simp at hg
        · rename_i c cs _ _
          split
          · rename_i heq; have h2 := this (c :: cs); rw [heq] at h2; exact h2
          · rename_i heq; have h2 := this (c :: cs); rw [heq] at h2; exact h2.append ih1
          · rename_i heq; have h2 := this (c :: cs); rw [heq] at h2; exact h2.append ih2
      · intro g hg; simp at hg

theorem getoptAll_diag (options : List Char) (args : List String) :
    DiagIsError (getoptAll options args).1 :=
  getoptAll_diag_aux options args.length args (Nat.le_refl _)

end Libc

namespace W

/-! ### Lemmas on the sort pass -/

theorem insertIdle_perm (s : Entry) (l : List Entry) :
    (insertIdle s l).Perm (s :: l) := by
  induction l with
  | nil => exact List.Perm.refl _
  | cons e rest ih =>
    unfold insertIdle
    split
    · exact (List.Perm.cons e ih).trans (List.Perm.swap s e rest)
    · exact List.Perm.refl _

theorem sortLoop_perm (frm ehead : List Entry) :
    (sortLoop frm ehead).Perm (frm ++ ehead) := by
  induction frm generalizing ehead with
  | nil => exact List.Perm.refl _
  | cons s frm ih =>
    unfold sortLoop
    refine (ih (insertIdle s ehead)).trans ?_
    refine (List.Perm.append_left frm (insertIdle_perm s ehead)).trans ?_
    exact (List.perm_middle).trans (List.Perm.refl _)

theorem insertIdle_head (s : Entry) (l : List Entry) (b : Int)
    (hs : b ≤ s.idle) (hl : ∀ x ∈ l.head?, b ≤ x.idle) :
    ∀ x ∈ (insertIdle s l).head?, b ≤ x.idle := by
  cases l with
  | nil => intro x hx; simp [insertIdle] at hx; subst hx; exact hs
  | cons e rest =>
    intro x hx
    unfold insertIdle at hx
    split at hx
    · simp at hx; subst hx; exact hl _ (by simp)
    · simp at hx; subst hx; exact hs

theorem insertIdle_ordered (s : Entry) (l : List Entry) (h : IdleOrdered l) :
    IdleOrdered (insertIdle s l) := by
  induction l with
  | nil => simp [insertIdle, IdleOrdered]
  | cons e rest ih =>
    unfold IdleOrdered at h ih ⊢
    unfold insertIdle
    split
    · rename_i hge
      rw [List.chain'_cons'] at h ⊢
      exact ⟨insertIdle_head s rest e.idle hge h.1, ih h.2⟩
    · rename_i hlt
      rw [List.chain'_cons']
      refine ⟨?_, h⟩
      intro x hx
      simp at hx
      subst hx
      omega

theorem sortLoop_ordered (frm ehead : List Entry) (h : IdleOrdered ehead) :
    IdleOrdered (sortLoop frm ehead) := by
  induction frm generalizing ehead with
  | nil => exact h
  | cons s frm ih => exact ih _ (insertIdle_ordered s ehead h)

/-! ## Claims on the sort pass -/

/-- C1: with `-i` (`sortidle` set) and a non-empty entry list, after the sort
pass every two adjacent entries `a`, `b` of the list satisfy
`a.idle ≤ b.idle`. -/
theorem sortPass_idle_ordered (ehead : List Entry) (hne : ehead ≠ []) :
    ∀ (i : Nat) (h : i + 1 < (sortPass true ehead).length),
      ((sortPass true ehead).get ⟨i, Nat.lt_of_succ_lt h⟩).idle
        ≤ ((sortPass true ehead).get ⟨i + 1, h⟩).idle := by
  have hs : sortPass true ehead = sortLoop ehead [] := by
    cases ehead with
    | nil => exact absurd rfl hne
    | cons a l => rfl
  have ho : IdleOrdered (sortPass true ehead) := by
    rw [hs]; exact sortLoop_ordered ehead [] (by simp [IdleOrdered])
  intro i h
  exact (List.chain'_iff_get.mp ho) i (by omega)

/-- Witness of C1: the first two entries after sorting the example list. -/
theorem sortPass_idle_ordered_witness :
    exEntries ≠ [] ∧
    ((sortPass true exEntries).get ⟨0, by decide⟩).idle
      ≤ ((sortPass true exEntries).get ⟨1, by decide⟩).idle :=
  ⟨by decide, sortPass_idle_ordered exEntries (by decide) 0 (by decide)⟩

/-- C2: the sort pass only reorders the list: for every input list the result
is a permutation of the input, so it has the same length and every entry
occurs in it as often as in the input, with all its fields (the `next` link,
which is the position in the list, apart) unchanged. -/
theorem sortPass_perm (sortidle : Bool) (ehead : List Entry) :
    (sortPass sortidle ehead).Perm ehead ∧
    (sortPass sortidle ehead).length = ehead.length ∧
    (∀ e : Entry, (sortPass sortidle ehead).count e = ehead.count e) := by
  have hp : (sortPass sortidle ehead).Perm ehead := by
    unfold sortPass
    split
    · simpa using sortLoop_perm ehead []
    · exact List.Perm.refl _
  exact ⟨hp, hp.length_eq, fun e => hp.count_eq e⟩

end W

namespace Ypwhich

open Libc

/-! ### Lemmas on the option loop -/

theorem optCase_ok_cases (w : Written) (o o1 : Opts) (g : GetoptRet)
    (h : optCase w o g = .ok o1) :
    g.ch = 'h' ∨ g.ch = 'd' ∨ g.ch = 't' ∨ g.ch = 'm' := by
  unfold optCase at h
  by_cases hx : g.ch = 'x'
  · simp [hx] at h
  · by_cases hh : g.ch = 'h'
    · exact Or.inl hh
    · by_cases hd : g.ch = 'd'
      · exact Or.inr (Or.inl hd)
      · by_cases ht : g.ch = 't'
        · exact Or.inr (Or.inr (Or.inl ht))
        · by_cases hm : g.ch = 'm'
          · exact Or.inr (Or.inr (Or.inr hm))
          · simp [hx, hh, hd, ht, hm] at h

theorem optLoop_ok_stdout (gs : List GetoptRet) (w w1 : Written) (o o1 : Opts)
    (h : optLoop w o gs = .ok (w1, o1)) : w1.stdout = w.stdout := by
  induction gs generalizing w o with
  | nil =>
    simp only [optLoop] at h
    cases h; rfl
  | cons g gs ih =>
    simp only [optLoop] at h
    split at h
    · cases h
    · rename_i o2 _
      rw [ih _ _ h]
      cases g.diag <;> rfl

theorem optLoop_ok_written (gs : List GetoptRet) (hgs : DiagIsError gs)
    (w w1 : Written) (o o1 : Opts)
    (h : optLoop w o gs = .ok (w1, o1)) : w1 = w := by
  induction gs generalizing w o with
  | nil =>
    simp only [optLoop] at h
    cases h; rfl
  | cons g gs ih =>
    simp only [optLoop] at h
    split at h
    · cases h
    · rename_i o2 hc
      have hch := optCase_ok_cases _ _ _ _ hc
      have hdiag : g.diag = none := by
        by_contra hne
        have := hgs g (List.mem_cons_self _ _) hne
        rw [this] at hch
        revert hch; decide
      rw [ih (fun x hx => hgs x (List.mem_cons_of_mem _ hx)) _ _ h]
      rw [hdiag]

theorem translate_eq_spec (notrans : Bool) (mapname : String) :
    translate notrans mapname = if notrans then mapname else nicknameSpec mapname := by
  unfold translate
  cases notrans
  · simp only [Bool.false_eq_true, if_false]
    unfold nicknameSpec ypaliases
    simp only [List.foldl]
    by_cases h1 : mapname = "passwd"
    · subst h1; decide
    by_cases h2 : mapname = "group"
    · subst h2; decide
    by_cases h3 : mapname = "networks"
    · subst h3; decide
    by_cases h4 : mapname = "hosts"
    · subst h4; decide
    by_cases h5 : mapname = "protocols"
    · subst h5; decide
    by_cases h6 : mapname = "services"
    · subst h6; decide
    by_cases h7 : mapname = "aliases"
    · subst h7; decide
    by_cases h8 : mapname = "ethers"
    · subst h8; decide
    simp [h1, h2, h3, h4, h5, h6, h7, h8]
  · simp

/-! ## Claims on ypwhich -/

/-- C3: in `ypwhich -m mapname` the map name handed to the master lookup is,
without `-t`, the full map name of the table when `mapname` is one of the eight
nicknames and `mapname` itself otherwise, and with `-t` always `mapname`
itself: the run equals the run with `-t` on the name translated by one step
through the table. -/
theorem translate_one_step :
    (∀ (notrans : Bool) (mapname : String),
      translate notrans mapname = if notrans then mapname else nicknameSpec mapname) ∧
    (∀ (env : Env) (w : Written) (o : Opts) (mapname : String), o.mode ≠ 0 →
      afterOpts env w o [mapname] =
        afterOpts env w { o with notrans := true }
          [if o.notrans then mapname else nicknameSpec mapname]) := by
  refine ⟨translate_eq_spec, ?_⟩
  intro env w o mapname hm
  simp only [afterOpts, hm, if_false, List.length_singleton, List.head?_cons,
    translate_eq_spec, master, clientOf, if_true]

/-- Witness of C3 at `ypwhich -h server1 -m aliases`. -/
theorem translate_one_step_witness :
    translate false "aliases" = "mail.aliases" ∧
    afterOpts exEnv Written.empty ⟨"example.org", some "server1", false, 1⟩ ["aliases"] =
      afterOpts exEnv Written.empty ⟨"example.org", some "server1", true, 1⟩
        ["mail.aliases"] :=
  ⟨by rw [translate_one_step.1]; decide,
   translate_one_step.2 exEnv Written.empty ⟨"example.org", some "server1", false, 1⟩
     "aliases" (by decide)⟩

/-- C4: the usage line `ypwhich [-t] [-d domain] [[-h] host]` makes
`ypwhich -h host` the same as `ypwhich host`; the code, without `-m`, drops
the host given with `-h` and queries the ypbind on the loopback address, as
`ypwhich` without arguments does.  On a site where only `server1` runs ypbind
the two invocations differ in output and exit status. -/
theorem dash_h_host_dropped :
    (∀ (env : Env) (host : String), main env ["-h", host] = main env []) ∧
    main exEnv ["-h", "server1"] =
      ⟨[], ["ypwhich: host is not bound to a ypmaster\n"], 1⟩ ∧
    main exEnv ["server1"] = ⟨["nis1\n"], [], 0⟩ := by
  refine ⟨?_, by decide, by decide⟩
  intro env host
  unfold main
  cases env.yp_get_default_domain with
  | none => rfl
  | some d => rfl

/-- C5: `bind_host` is to return a nonzero error code whenever ypbind answers
with a status other than `YPBIND_SUCC_VAL`; on that path the code returns `r`,
which is `RPC_SUCCESS` = 0 there, so with a local ypbind that answers "domain
not bound" nothing is printed on stdout and yet `ypwhich` exits with status
0. -/
theorem bind_host_unbound_returns_zero :
    bind_host exEnvUnbound Written.empty "example.org" INADDR_LOOPBACK =
      (⟨[], ["can't yp_bind: Reason: Domain not bound\n"]⟩, 0) ∧
    main exEnvUnbound [] =
      ⟨[], ["can't yp_bind: Reason: Domain not bound\n"], 0⟩ := by
  constructor <;> decide

/-- C6: in `ypwhich -m` an error code of the map list lookup is to end the run
with a report and status 1; the code overwrites the code with 0 before the
`switch`, so with `yp_maplist` failing with `YPERR_YPBIND` nothing is reported
and the exit status is 0. -/
theorem maplist_error_dropped :
    exEnv.yp_maplist "example.org" = (YPERR_YPBIND, []) ∧
    main exEnv ["-m"] = ⟨[], [], 0⟩ := by
  constructor <;> decide

/-- C7: in `ypwhich -m mapname`, with `r` the result code of the master lookup
on the translated map name and `m` the master it stored: if `r = 0` the
master's name is printed on stdout and the exit status is 0; if
`r = YPERR_YPBIND` nothing is printed on stdout, `ypwhich: not running ypbind`
is reported and the exit status is 1; for every other `r` nothing is printed on
stdout, `Can't find master for map <map>. Reason: ...` names the translated map
and the exit status is 1.  The exit status is 0 iff `r = 0`. -/
theorem master_lookup_outcome (env : Env) (args : List String)
    (domain mapname m : String) (r : Int) (w : Written) (o : Opts)
    (hdom : env.yp_get_default_domain = some domain)
    (hopt : optLoop Written.empty ⟨domain, none, false, 0⟩
      (getoptAll "xd:h:mt".toList args).1 = .ok (w, o))
    (hmode : o.mode ≠ 0)
    (hargs : (getoptAll "xd:h:mt".toList args).2 = [mapname])
    (hres : master env o (clientOf env o) (translate o.notrans mapname) = (r, m)) :
    (r = 0 → main env args = ⟨[m ++ "\n"], [], 0⟩) ∧
    (r = YPERR_YPBIND → main env args = ⟨[], ["ypwhich: not running ypbind\n"], 1⟩) ∧
    (r ≠ 0 → r ≠ YPERR_YPBIND →
      main env args =
        ⟨[], ["Can't find master for map " ++ translate o.notrans mapname ++
          ". Reason: " ++ env.yperr_string r ++ "\n"], 1⟩) ∧
    ((main env args).status = 0 ↔ r = 0) := by
  have hw : w = Written.empty :=
    optLoop_ok_written _ (getoptAll_diag _ _) _ _ _ _ hopt
  subst hw
  have hmain : main env args = afterOpts env Written.empty o [mapname] := by
    unfold main
    rw [hdom]
    simp only [hopt, hargs]
  rw [hmain]
  simp only [afterOpts, hmode, if_false, List.length_singleton, List.head?_cons, hres]
  simp only [Written.out, Written.err, Written.exit, Written.empty, List.nil_append]
  by_cases h0 : r = 0
  · subst h0
    simp [YPERR_YPBIND]
  · by_cases h1 : r = YPERR_YPBIND
    · subst h1
      simp [YPERR_YPBIND]
    · simp [h0, h1]

/-- Witness of C7 at `ypwhich -h server1 -m passwd`. -/
theorem master_lookup_outcome_witness :
    main exEnv ["-h", "server1", "-m", "passwd"] = ⟨["nis1\n"], [], 0⟩ :=
  (master_lookup_outcome exEnv ["-h", "server1", "-m", "passwd"] "example.org" "passwd"
    "nis1" 0 Written.empty ⟨"example.org", some "server1", false, 1⟩ (by decide) rfl
    (by decide) (by decide) (by decide)).1 rfl

end Ypwhich

namespace W

open Libc

/-! ### Lemmas on `main` of w -/

theorem selectMode_w (l : List Char) :
    selectMode l = some true ↔ (l = ['w'] ∨ l = ['-', 'w']) := by
  unfold selectMode
  rcases l with _ | ⟨c, _ | ⟨d, _ | ⟨e, t⟩⟩⟩
  · simp
  · by_cases hc : c = '-'
    · subst hc; simp
    · by_cases hw : c = 'w'
      · subst hw; simp
      · simp [hc, hw]
  · by_cases hc : c = '-'
    · subst hc
      by_cases hw : d = 'w'
      · subst hw; simp
      · simp [hw]
    · simp [hc]
  · by_cases hc : c = '-'
    · subst hc
      simp
    · simp [hc]

theorem selectMode_uptime (l : List Char) :
    selectMode l = some false ↔ (l = "uptime".toList ∨ l = "-uptime".toList) := by
  unfold selectMode
  by_cases hc : l.head? = some '-'
  · obtain ⟨t, rfl⟩ : ∃ t, l = '-' :: t := by
      cases l with
      | nil => simp at hc
      | cons a t => simp at hc; exact ⟨t, by rw [hc]⟩
    simp only [List.head?_cons, if_true, List.tail_cons]
    by_cases hu : t = "uptime".toList
    · subst hu; decide
    · have h2 : ¬ ('-' :: t = "-uptime".toList) := by
        intro h; apply hu; simpa using h
      have h3 : ¬ ('-' :: t = "uptime".toList) := by
        intro h; simp at h
      simp only [hu, h2, h3, if_false, or_self, iff_false]
      split <;> simp
  · simp only [hc, if_false]
    by_cases hu : l = "uptime".toList
    · subst hu; decide
    · have h2 : ¬ (l = "-uptime".toList) := by
        intro h; subst h; simp at hc
      simp only [hu, h2, if_false, or_self, iff_false]
      split <;> simp


theorem wOptCase_ok_cases (progname : String) (wcmd : Bool) (w : Written) (f f1 : Flags)
    (g : GetoptRet) (h : optCase progname wcmd w f g = .ok f1) :
    g.ch = 'h' ∨ g.ch = 'i' ∨ g.ch = 'M' ∨ g.ch = 'N' ∨ g.ch = 'a' := by
  unfold optCase at h
  by_cases h1 : g.ch = 'h'
  · exact Or.inl h1
  by_cases h2 : g.ch = 'i'
  · exact Or.inr (Or.inl h2)
  by_cases h3 : g.ch = 'M'
  · exact Or.inr (Or.inr (Or.inl h3))
  by_cases h4 : g.ch = 'N'
  · exact Or.inr (Or.inr (Or.inr (Or.inl h4)))
  by_cases h5 : g.ch = 'a'
  · exact Or.inr (Or.inr (Or.inr (Or.inr h5)))
  simp only [h1, h2, h3, h4, h5, if_false] at h
  split at h <;> cases h

theorem wOptLoop_ok_written (progname : String) (wcmd : Bool) (gs : List GetoptRet)
    (hgs : DiagIsError gs) (w w1 : Written) (f f1 : Flags)
    (h : optLoop progname wcmd w f gs = .ok (w1, f1)) : w1 = w := by
  induction gs generalizing w f with
  | nil =>
    simp only [optLoop] at h
    cases h; rfl
  | cons g gs ih =>
    simp only [optLoop] at h
    split at h
    · cases h
    · rename_i f2 hc
      have hch := wOptCase_ok_cases _ _ _ _ _ _ hc
      have hdiag : g.diag = none := by
        by_contra hne
        have := hgs g (List.mem_cons_self _ _) hne
        rw [this] at hch
        revert hch; decide
      rw [ih (fun x hx => hgs x (List.mem_cons_of_mem _ hx)) _ _ h]
      rw [hdiag]

theorem optLoop_header (progname : String) (wcmd : Bool) (gs : List GetoptRet)
    (w w1 : Written) (f f1 : Flags)
    (h : optLoop progname wcmd w f gs = .ok (w1, f1)) :
    ((∃ g ∈ gs, g.ch = 'h') → f1.header = false) ∧
    ((∀ g ∈ gs, g.ch ≠ 'h' ∧ g.ch ≠ 'M') → f1.header = f.header) ∧
    (f.header = false → f1.header = false) := by
  induction gs generalizing w f with
  | nil =>
    simp only [optLoop] at h
    cases h
    simp
  | cons g gs ih =>
    simp only [optLoop] at h
    split at h
    · cases h
    · rename_i f2 hc
      obtain ⟨ih1, ih2, ih3⟩ := ih _ _ h
      have hf2 : (g.ch = 'h' → f2.header = false) ∧
          (g.ch ≠ 'h' → g.ch ≠ 'M' → f2.header = f.header) ∧
          (f.header = false → f2.header = false) := by
        unfold optCase at hc
        by_cases h1 : g.ch = 'h'
        · simp only [h1, if_true] at hc; cases hc; simp [h1]
        by_cases h2 : g.ch = 'i'
        · simp only [h1, h2, if_true, if_false] at hc; cases hc; simp [h1]
        by_cases h3 : g.ch = 'M'
        · simp only [h1, h2, h3, if_true, if_false] at hc; cases hc; simp [h1, h3]
        by_cases h4 : g.ch = 'N'
        · simp only [h1, h2, h3, h4, if_true, if_false] at hc; cases hc; simp [h1]
        by_cases h5 : g.ch = 'a'
        · simp only [h1, h2, h3, h4, h5, if_true, if_false] at hc; cases hc; simp [h1]
        simp only [h1, h2, h3, h4, h5, if_false] at hc
        split at hc <;> cases hc
      refine ⟨?_, ?_, ?_⟩
      · rintro ⟨x, hx, hxh⟩
        rcases List.mem_cons.mp hx with rfl | hx
        · exact ih3 (hf2.1 hxh)
        · exact ih1 ⟨x, hx, hxh⟩
      · intro hall
        rw [ih2 (fun x hx => hall x (List.mem_cons_of_mem _ hx))]
        exact hf2.2.1 (hall g (List.mem_cons_self _ _)).1 (hall g (List.mem_cons_self _ _)).2
      · intro hf
        exact ih3 (hf2.2.2 hf)

theorem foldl_out_stdout {α : Type} (g : α → String) (l : List α) (w : Written) :
    (l.foldl (fun acc ep => acc.out (g ep)) w).stdout = w.stdout ++ l.map g ∧
    (l.foldl (fun acc ep => acc.out (g ep)) w).stderr = w.stderr := by
  induction l generalizing w with
  | nil => simp
  | cons a l ih =>
    simp only [List.foldl_cons, List.map_cons]
    rw [(ih _).1, (ih _).2]
    simp [Written.out]

theorem listing_stdout (env : Env) (progname : String) (f : Flags) (w : Written)
    (ehead : List Entry) :
    (listing env progname f w ehead).stdout = w.stdout ++ entryLines env f ehead := by
  unfold listing entryLines
  cases env.kvm_getprocs with
  | error e => simp [Written.err, Written.exit]
  | ok procs => simp [Written.exit, (foldl_out_stdout _ _ _).1]


theorem toInt32_id (x : Int) (h0 : 0 ≤ x) (h1 : x < 2 ^ 31) : toInt32 x = x := by
  unfold toInt32
  norm_num at h1 ⊢
  omega

theorem scanStep_count (env : Env) (wcmd : Bool) (sel_user : Option (List Char))
    (st : Int × List Entry) (u : Utmp) :
    (scanStep env wcmd sel_user st u).1 =
      if byteAt u.ut_name 0 != NUL then toInt32 (st.1 + 1) else st.1 := by
  unfold scanStep
  by_cases h : byteAt u.ut_name 0 = NUL
  · simp [h]
  · simp only [h, if_false, bne_iff_ne, ne_eq, not_false_eq_true, if_true]
    split
    · rfl
    · split <;> rfl

theorem scan_count_aux (env : Env) (wcmd : Bool) (sel_user : Option (List Char))
    (records : List Utmp) (st : Int × List Entry)
    (h0 : 0 ≤ st.1) (h1 : st.1 + countUsers records < 2 ^ 31) :
    (records.foldl (scanStep env wcmd sel_user) st).1 = st.1 + countUsers records := by
  induction records generalizing st with
  | nil => simp [countUsers]
  | cons u us ih =>
    simp only [List.foldl_cons]
    have hs := scanStep_count env wcmd sel_user st u
    by_cases h : byteAt u.ut_name 0 != NUL
    · have hc : countUsers (u :: us) = countUsers us + 1 := by
        simp [countUsers, List.filter_cons, h]
      rw [hc] at h1 ⊢
      simp only [h, if_true] at hs
      have hid : toInt32 (st.1 + 1) = st.1 + 1 :=
        toInt32_id _ (by omega) (by push_cast at h1; omega)
      rw [hid] at hs
      rw [ih _ (by rw [hs]; omega) (by rw [hs]; push_cast at h1 ⊢; omega), hs]
      push_cast; omega
    · have hc : countUsers (u :: us) = countUsers us := by
        simp [countUsers, List.filter_cons, h]
      rw [hc] at h1 ⊢
      simp only [h, Bool.false_eq_true, if_false] at hs
      rw [ih _ (by rw [hs]; exact h0) (by rw [hs]; exact h1), hs]

theorem scanUtmp_count (env : Env) (wcmd : Bool) (sel_user : Option (List Char))
    (records : List Utmp) (h : countUsers records < 2 ^ 31) :
    (scanUtmp env wcmd sel_user records).1 = countUsers records := by
  unfold scanUtmp
  rw [scan_count_aux env wcmd sel_user records (0, []) (by simp) (by simpa using (by exact_mod_cast h))]
  simp

theorem toList_eq_iff (s : String) (l : List Char) : s.toList = l ↔ s = String.mk l := by
  cases s
  constructor
  · intro h; exact congrArg String.mk h
  · intro h; exact congrArg String.data h

theorem main_eq_afterScan (env : Env) (progname : String) (args : List String)
    (wcmd : Bool) (gs : List GetoptRet) (argv : List String) (w : Written) (f : Flags)
    (records : List Utmp)
    (hmode : selectMode progname.toList = some wcmd)
    (hargs : getoptAll (optstring wcmd).toList args = (gs, argv))
    (hopt : optLoop progname wcmd Written.empty Flags.init gs = .ok (w, f))
    (hpledge : env.pledge (promises f.nflag) = true)
    (hkvm : env.kvm_openfiles f.nlistf f.memf (f.nlistf = none ∧ f.memf = none) = none)
    (hutmp : env.utmp = some records) :
    main env progname args =
      afterScan env progname wcmd f Written.empty
        (scanUtmp env wcmd (argv.head?.map String.toList) records).1
        (scanUtmp env wcmd (argv.head?.map String.toList) records).2 := by
  have hw : w = Written.empty := by
    have hd := getoptAll_diag (optstring wcmd).toList args
    rw [hargs] at hd
    exact wOptLoop_ok_written _ _ _ hd _ _ _ _ hopt
  subst hw
  unfold main
  simp only [hmode, hargs, hopt]
  unfold afterOpts
  simp only [hpledge, hkvm, hutmp]
  simp


/-! ## Claims on `main` of w -/

/-- C8: the mode is selected from the invocation name after removing at most
one leading `-`: the name `w` gives w mode, the name `uptime` gives uptime
mode, and every other name (such as `--w`, `w ` or `W`) makes the program
exit with status 1 and the message that it should be invoked only as "w" or
"uptime". -/
theorem invocation_name :
    (∀ progname : String,
      selectMode progname.toList = some true ↔ (progname = "w" ∨ progname = "-w")) ∧
    (∀ progname : String,
      selectMode progname.toList = some false ↔
        (progname = "uptime" ∨ progname = "-uptime")) ∧
    (∀ (env : Env) (progname : String) (args : List String),
      progname ≠ "w" → progname ≠ "-w" → progname ≠ "uptime" → progname ≠ "-uptime" →
      main env progname args =
        ⟨[], [progname ++
          ": this program should be invoked only as \"w\" or \"uptime\"\n"], 1⟩) ∧
    selectMode "--w".toList = none ∧ selectMode "w ".toList = none ∧
    selectMode "W".toList = none := by
  have hw : ∀ progname : String,
      selectMode progname.toList = some true ↔ (progname = "w" ∨ progname = "-w") := by
    intro progname
    rw [selectMode_w, toList_eq_iff, toList_eq_iff]
  have hu : ∀ progname : String,
      selectMode progname.toList = some false ↔
        (progname = "uptime" ∨ progname = "-uptime") := by
    intro progname
    rw [selectMode_uptime, toList_eq_iff, toList_eq_iff]
    exact Iff.rfl
  refine ⟨hw, hu, ?_, by decide, by decide, by decide⟩
  intro env progname args h1 h2 h3 h4
  have hnone : selectMode progname.toList = none := by
    cases hsel : selectMode progname.toList with
    | none => rfl
    | some b =>
      cases b with
      | true => rcases (hw progname).mp hsel with h | h
                · exact absurd h h1
                · exact absurd h h2
      | false => rcases (hu progname).mp hsel with h | h
                 · exact absurd h h3
                 · exact absurd h h4
  unfold main
  rw [hnone]
  rfl

/-- Witness of C8 at the invocation name `--w`. -/
theorem invocation_name_witness :
    main exEnv "--w" [] =
      ⟨[], ["--w: this program should be invoked only as \"w\" or \"uptime\"\n"], 1⟩ :=
  invocation_name.2.2.1 exEnv "--w" [] (by decide) (by decide) (by decide) (by decide)

/-- C9: for a run whose options parse and whose `pledge`, `kvm_openfiles` and
utmp `fopen` succeed: in w mode, when `-h` is given stdout holds the entry
lines only, neither the summary line nor the heading line; when neither `-h`
nor `-M` is given stdout starts with the summary line followed by the heading
line; in uptime mode the summary line is all that is printed and the program
exits with status 0. -/
theorem summary_and_heading (env : Env) (progname : String) (args : List String)
    (wcmd : Bool) (gs : List GetoptRet) (argv : List String) (w : Written) (f : Flags)
    (records : List Utmp)
    (hmode : selectMode progname.toList = some wcmd)
    (hargs : getoptAll (optstring wcmd).toList args = (gs, argv))
    (hopt : optLoop progname wcmd Written.empty Flags.init gs = .ok (w, f))
    (hpledge : env.pledge (promises f.nflag) = true)
    (hkvm : env.kvm_openfiles f.nlistf f.memf (f.nlistf = none ∧ f.memf = none) = none)
    (hutmp : env.utmp = some records) :
    (wcmd = true → (∃ g ∈ gs, g.ch = 'h') →
      (main env progname args).stdout =
        entryLines env f (scanUtmp env wcmd (argv.head?.map String.toList) records).2) ∧
    (wcmd = true → (∀ g ∈ gs, g.ch ≠ 'h' ∧ g.ch ≠ 'M') →
      (main env progname args).stdout =
        pr_header env env.time (scanUtmp env wcmd (argv.head?.map String.toList) records).1
          :: (HEADER ++ "\n")
          :: entryLines env f (scanUtmp env wcmd (argv.head?.map String.toList) records).2) ∧
    (wcmd = false →
      main env progname args =
        ⟨[pr_header env env.time
            (scanUtmp env wcmd (argv.head?.map String.toList) records).1], [], 0⟩) := by
  rw [main_eq_afterScan env progname args wcmd gs argv w f records hmode hargs hopt
    hpledge hkvm hutmp]
  obtain ⟨hh1, hh2, _⟩ := optLoop_header _ _ _ _ _ _ _ hopt
  refine ⟨?_, ?_, ?_⟩
  · intro hw hex
    have hf : f.header = false := hh1 hex
    subst hw
    simp [afterScan, hf, listing_stdout, Written.empty]
  · intro hw hall
    have hf : f.header = true := by rw [hh2 hall]; rfl
    subst hw
    simp [afterScan, hf, listing_stdout, Written.empty, Written.out]
  · intro hw
    subst hw
    simp [afterScan, Written.empty, Written.out, Written.exit]

/-- Witness of C9 at `w -h`. -/
theorem summary_and_heading_witness :
    (main exEnv "w" ["-h"]).stdout =
      entryLines exEnv ⟨false, true, false, none, none⟩
        (scanUtmp exEnv true none exUtmp).2 :=
  (summary_and_heading exEnv "w" ["-h"] true [⟨'h', none, none⟩] [] Written.empty
    ⟨false, true, false, none, none⟩ exUtmp (by decide) (by decide) rfl rfl rfl rfl).1
    rfl ⟨⟨'h', none, none⟩, by simp, rfl⟩

/-- C10: the user count handed to `pr_header`, which prints it in the summary
line, is the number of utmp records whose `ut_name` is not empty (as long as
that number fits an `int`), whatever the mode and the user argument; whenever
the summary line is printed it is the first line of stdout and carries that
count. -/
theorem user_count (env : Env) (progname : String) (args : List String)
    (wcmd : Bool) (gs : List GetoptRet) (argv : List String) (w : Written) (f : Flags)
    (records : List Utmp)
    (hmode : selectMode progname.toList = some wcmd)
    (hargs : getoptAll (optstring wcmd).toList args = (gs, argv))
    (hopt : optLoop progname wcmd Written.empty Flags.init gs = .ok (w, f))
    (hpledge : env.pledge (promises f.nflag) = true)
    (hkvm : env.kvm_openfiles f.nlistf f.memf (f.nlistf = none ∧ f.memf = none) = none)
    (hutmp : env.utmp = some records)
    (hcount : countUsers records < 2 ^ 31) :
    (∀ (mode : Bool) (sel_user : Option (List Char)),
      (scanUtmp env mode sel_user records).1 = countUsers records) ∧
    (f.header = true ∨ wcmd = false →
      (main env progname args).stdout.head? =
        some (pr_header env env.time (countUsers records))) := by
  refine ⟨fun mode sel_user => scanUtmp_count env mode sel_user records hcount, ?_⟩
  intro hprint
  rw [main_eq_afterScan env progname args wcmd gs argv w f records hmode hargs hopt
    hpledge hkvm hutmp]
  rw [scanUtmp_count env wcmd _ records hcount]
  unfold afterScan
  simp only [hprint, if_true]
  split
  · simp [Written.empty, Written.out, Written.exit]
  · rw [listing_stdout]
    split <;> simp [Written.empty, Written.out]

/-- Witness of C10 at `uptime` on the example utmp file, which has two
records with a name. -/
theorem user_count_witness :
    (main exEnv "uptime" []).stdout.head? = some (pr_header exEnv exEnv.time 2) :=
  (user_count exEnv "uptime" [] false [] [] Written.empty Flags.init exUtmp
    (by decide) (by decide) rfl rfl rfl rfl (by decide)).2 (Or.inr rfl)


/-! ### Lemmas on the utmp scan -/

theorem strncmpEq_iff (n : Nat) (a b : List Char) :
    strncmpEq n a b = true ↔ cstrn n a = cstrn n b := by
  induction n generalizing a b with
  | zero => simp [strncmpEq, cstrn]
  | succ n ih =>
    unfold strncmpEq
    cases a with
    | nil =>
      cases b with
      | nil => simp [cstrn]
      | cons y bs =>
        by_cases hy : y = NUL
        · simp [cstrn, hy]
        · have hy2 : ¬ NUL = y := fun h => hy h.symm
          simp [cstrn, hy, hy2, List.takeWhile_cons]
    | cons x as =>
      cases b with
      | nil =>
        by_cases hx : x = NUL
        · simp [cstrn, hx]
        · simp [cstrn, hx, List.takeWhile_cons]
      | cons y bs =>
        by_cases hxy : x = y
        · subst hxy
          by_cases hx : x = NUL
          · simp [cstrn, hx]
          · have := ih as bs
            simp only [cstrn] at this
            simp [cstrn, hx, List.takeWhile_cons, this]
        · by_cases hx : x = NUL
          · subst hx
            have hy : ¬ y = NUL := fun h => hxy h.symm
            simp [cstrn, hxy, hy, List.takeWhile_cons]
          · by_cases hy : y = NUL
            · simp [cstrn, hxy, hx, hy, List.takeWhile_cons]
            · simp [cstrn, hxy, hx, hy, List.takeWhile_cons]

theorem scanStep_w (env : Env) (sel_user : Option (List Char)) (st : Int × List Entry)
    (u : Utmp) :
    (scanStep env true sel_user st u).2 =
      if selected sel_user u then st.2 ++ [entryOf env u] else st.2 := by
  unfold scanStep selected entryOf
  by_cases h : byteAt u.ut_name 0 = NUL
  · simp [h]
  · cases sel_user with
    | none =>
      simp only [h, if_false]
      cases ttystat env u.ut_line <;> simp [h]
    | some s =>
      simp only [h, if_false]
      by_cases hs : strncmpEq UT_NAMESIZE u.ut_name s = true
      · have hc := (strncmpEq_iff _ _ _).mp hs
        cases ttystat env u.ut_line <;> simp [h, hs, hc]
      · have hc : ¬ cstrn UT_NAMESIZE u.ut_name = cstrn UT_NAMESIZE s :=
          fun hc => hs ((strncmpEq_iff _ _ _).mpr hc)
        simp [h, hs, hc]

theorem scan_w_aux (env : Env) (sel_user : Option (List Char)) (records : List Utmp)
    (st : Int × List Entry) :
    (records.foldl (scanStep env true sel_user) st).2 =
      st.2 ++ (records.filter (selected sel_user)).map (entryOf env) := by
  induction records generalizing st with
  | nil => simp
  | cons u us ih =>
    simp only [List.foldl_cons]
    rw [ih, scanStep_w]
    by_cases h : selected sel_user u = true
    · simp [h, List.filter_cons]
    · simp [h, List.filter_cons]

theorem scanUtmp_w (env : Env) (sel_user : Option (List Char)) (records : List Utmp) :
    (scanUtmp env true sel_user records).2 =
      (records.filter (selected sel_user)).map (entryOf env) := by
  unfold scanUtmp
  rw [scan_w_aux]
  simp

theorem scan_uptime_aux (env : Env) (sel_user : Option (List Char)) (records : List Utmp)
    (st : Int × List Entry) :
    (records.foldl (scanStep env false sel_user) st).2 = st.2 := by
  induction records generalizing st with
  | nil => simp
  | cons u us ih =>
    simp only [List.foldl_cons]
    rw [ih]
    unfold scanStep
    split <;> simp

theorem entryOf_utmp (env : Env) (u : Utmp) : (entryOf env u).utmp = u := by
  unfold entryOf
  split <;> rfl


theorem toInt64_id (x : Int) (h0 : -(2 ^ 63) ≤ x) (h1 : x < 2 ^ 63) : toInt64 x = x := by
  unfold toInt64
  norm_num at h0 h1 ⊢
  omega

theorem toInt64_range (x : Int) : -(2 ^ 63) ≤ toInt64 x ∧ toInt64 x < 2 ^ 63 := by
  unfold toInt64
  norm_num
  omega

theorem entryOf_idle (env : Env) (u : Utmp) : IdleSpec env (entryOf env u) := by
  unfold IdleSpec
  rw [entryOf_utmp]
  unfold entryOf
  cases h : ttystat env u.ut_line with
  | none => simp
  | some stp =>
    simp only
    refine ⟨?_, ?_, ?_⟩
    · split <;> omega
    · intro hc; cases hc
    · intro st hst h0 h1
      cases hst
      rw [toInt64_id _ h0 h1]
      constructor
      · intro hge; rw [if_neg (by omega)]
      · intro hlt; rw [if_pos hlt]

theorem IdleSpec_of_fixed (env : Env) (e e0 : Entry) (h : e.fixed = e0.fixed)
    (h0 : IdleSpec env e0) : IdleSpec env e := by
  unfold Entry.fixed at h
  simp only [Prod.mk.injEq] at h
  unfold IdleSpec at h0 ⊢
  rw [h.1, h.2.2]
  exact h0

theorem offerProc_fixed (env : Env) (kp : KinfoProc) (l : List Entry) :
    (offerProc env kp l).map Entry.fixed = l.map Entry.fixed := by
  induction l with
  | nil => rfl
  | cons ep rest ih =>
    unfold offerProc
    split
    · split
      · simp [Entry.fixed]
      · simp [ih]
    · split
      · split <;> simp [Entry.fixed]
      · simp [ih]

theorem procScan_fixed (env : Env) (procs : List KinfoProc) (l : List Entry) :
    (procScan env procs l).map Entry.fixed = l.map Entry.fixed := by
  unfold procScan
  induction procs generalizing l with
  | nil => rfl
  | cons kp procs ih =>
    simp only [List.foldl_cons]
    rw [ih]
    unfold procStep
    split
    · rfl
    · exact offerProc_fixed env kp l

theorem mem_of_map_fixed (l1 l0 : List Entry) (h : l1.map Entry.fixed = l0.map Entry.fixed)
    (e : Entry) (he : e ∈ l1) : ∃ e0 ∈ l0, e.fixed = e0.fixed := by
  have : e.fixed ∈ l1.map Entry.fixed := List.mem_map_of_mem _ he
  rw [h] at this
  obtain ⟨e0, h0, h1⟩ := List.mem_map.mp this
  exact ⟨e0, h0, h1.symm⟩

theorem sortPass_mem (sortidle : Bool) (l : List Entry) (e : Entry) :
    e ∈ sortPass sortidle l ↔ e ∈ l := by
  have hp : (sortPass sortidle l).Perm l := by
    unfold sortPass
    split
    · simpa using sortLoop_perm l []
    · exact List.Perm.refl _
  exact hp.mem_iff

/-! ## Claims on the utmp scan -/

/-- C11: in w mode the entry list built from utmp holds exactly the records
with a non-empty `ut_name` whose name equals the user argument in its first
`UT_NAMESIZE` bytes (all records with a non-empty name when there is no user
argument), one entry per record, in file order; in uptime mode the list is
empty.  Without `-i` the lines are printed in that order. -/
theorem entry_list (env : Env) (sel_user : Option (List Char)) (records : List Utmp)
    (procs : List KinfoProc) (f : Flags) :
    (scanUtmp env false sel_user records).2 = [] ∧
    (scanUtmp env true sel_user records).2.map Entry.utmp =
      records.filter (selected sel_user) ∧
    (f.sortidle = false → env.kvm_getprocs = .ok procs →
      entryLines env f (scanUtmp env true sel_user records).2 =
        (procScan env procs (scanUtmp env true sel_user records).2).map
          (prEntry env f.nflag (domainOf env f.nflag)) ∧
      (procScan env procs (scanUtmp env true sel_user records).2).map Entry.utmp =
        records.filter (selected sel_user)) := by
  have h2 : (scanUtmp env true sel_user records).2.map Entry.utmp =
      records.filter (selected sel_user) := by
    rw [scanUtmp_w, List.map_map]
    have : (Entry.utmp ∘ entryOf env) = id := by
      funext u; exact entryOf_utmp env u
    rw [this, List.map_id]
  refine ⟨?_, h2, ?_⟩
  · unfold scanUtmp
    rw [scan_uptime_aux]
  · intro hs hk
    constructor
    · unfold entryLines
      rw [hk]
      simp [sortPass, hs]
    · have hf := procScan_fixed env procs (scanUtmp env true sel_user records).2
      have := congrArg (List.map Prod.fst) hf
      simp only [List.map_map] at this
      have hcomp : (Prod.fst ∘ Entry.fixed) = Entry.utmp := by
        funext e; rfl
      rw [hcomp] at this
      rw [this, h2]

/-- Witness of C11: `w bob` on the example utmp file lists the one record of
`bob`. -/
theorem entry_list_witness :
    entryLines exEnv Flags.init (scanUtmp exEnv true (some "bob".toList) exUtmp).2 =
        (procScan exEnv [] (scanUtmp exEnv true (some "bob".toList) exUtmp).2).map
          (prEntry exEnv true (domainOf exEnv true)) ∧
      (procScan exEnv [] (scanUtmp exEnv true (some "bob".toList) exUtmp).2).map
          Entry.utmp = exUtmp.filter (selected (some "bob".toList)) :=
  (entry_list exEnv (some "bob".toList) exUtmp [] Flags.init).2.2 rfl rfl

/-- C16: every entry's idle time is non-negative: it is `now - st_atime` of the
entry's terminal when that difference is not negative, 0 when the access time
lies in the future, and 0 when the terminal cannot be stat'ed.  This holds for
the entries of the list that is printed, in either mode and with or without
sorting. -/
theorem idle_time (env : Env) (wcmd sortidle : Bool) (sel_user : Option (List Char))
    (records : List Utmp) (procs : List KinfoProc) :
    ∀ e ∈ sortPass sortidle (procScan env procs (scanUtmp env wcmd sel_user records).2),
      IdleSpec env e := by
  intro e he
  rw [sortPass_mem] at he
  obtain ⟨e0, h0, hfix⟩ := mem_of_map_fixed _ _ (procScan_fixed env procs _) e he
  apply IdleSpec_of_fixed env e e0 hfix
  cases wcmd with
  | false =>
    have : (scanUtmp env false sel_user records).2 = [] := by
      unfold scanUtmp; rw [scan_uptime_aux]
    rw [this] at h0
    cases h0
  | true =>
    rw [scanUtmp_w] at h0
    obtain ⟨u, _, hu⟩ := List.mem_map.mp h0
    rw [← hu]
    exact entryOf_idle env u

/-- Witness of C16: the entry of `alice` in the example, whose terminal was
last used 100 seconds ago. -/
theorem idle_time_witness :
    IdleSpec exEnv ⟨⟨"ttyp0".toList, "alice".toList, "host1".toList, 1000⟩, 5, 100, none⟩ :=
  idle_time exEnv true false none exUtmp [] _ (by decide)

end W

namespace Libc

/-! ### More lemmas on getopt -/

theorem getoptAll_all_aux (options : List Char) (P : GetoptRet → Prop)
    (hword : ∀ next place, ∀ g ∈ (getoptWord options next place).1, P g) (n : Nat) :
    ∀ args : List String, args.length ≤ n → ∀ g ∈ (getoptAll options args).1, P g := by
  induction n with
  | zero =>
    intro args h
    cases args with
    | nil => intro g hg; simp [getoptAll] at hg
    | cons a l => simp at h
  | succ n ih =>
    intro args h
    match args, h with
    | [], _ => intro g hg; simp [getoptAll] at hg
    | [w], _ =>
      unfold getoptAll
      have := hword none
      split
      · split
        · split
          · rename_i heq; have h2 := this ['-']; rw [heq] at h2; exact h2
          · rename_i heq; have h2 := this ['-']; rw [heq] at h2; exact h2
        · intro g hg; simp at hg
      · split
        · intro g hg; simp at hg
        · rename_i c cs _ _
          split
          · rename_i heq; have h2 := this (c :: cs); rw [heq] at h2; exact h2
          · rename_i heq; have h2 := this (c :: cs); rw [heq] at h2; exact h2
      · intro g hg; simp at hg
    | w :: a :: rest, h =>
      unfold getoptAll
      have := hword (some a)
      have ih1 := ih rest (by simp at h; omega)
      have ih2 := ih (a :: rest) (by simp at h ⊢; omega)
      have happ : ∀ (x y : List GetoptRet), (∀ g ∈ x, P g) → (∀ g ∈ y, P g) →
          ∀ g ∈ x ++ y, P g := by
        intro x y hx hy g hg
        rcases List.mem_append.mp hg with h | h
        · exact hx g h
        · exact hy g h
      split
      · split
        · split
          · rename_i heq; have h2 := this ['-']; rw [heq] at h2; exact h2
          · rename_i heq; have h2 := this ['-']; rw [heq] at h2; exact happ _ _ h2 ih1
          · rename_i heq; have h2 := this ['-']; rw [heq] at h2; exact happ _ _ h2 ih2
        · intro g hg; simp at hg
      · split
        · intro g hg; simp at hg
        · rename_i c cs _ _
          split
          · rename_i heq; have h2 := this (c :: cs); rw [heq] at h2; exact h2
          · rename_i heq; have h2 := this (c :: cs); rw [heq] at h2; exact happ _ _ h2 ih1
          · rename_i heq; have h2 := this (c :: cs); rw [heq] at h2; exact happ _ _ h2 ih2
      · intro g hg; simp at hg

theorem getoptWord_nil_options (next : Option String) (place : List Char) :
    ∀ g ∈ (getoptWord [] next place).1, g.ch = '?' ∧ g.diag ≠ none := by
  induction place with
  | nil => intro g hg; simp [getoptWord] at hg
  | cons c place ih =>
    intro g hg
    unfold getoptWord at hg
    simp only [List.not_mem_nil, not_false_eq_true, or_true, if_true] at hg
    split at hg
    · simp at hg
    · simp only [List.mem_cons] at hg
      rcases hg with h | h
      · subst h; simp
      · exact ih g h

theorem getoptAll_nil_options (args : List String) :
    ∀ g ∈ (getoptAll [] args).1, g.ch = '?' ∧ g.diag ≠ none :=
  getoptAll_all_aux [] _ getoptWord_nil_options args.length args (Nat.le_refl _)

theorem getoptWord_unknown (options : List Char) (next : Option String) (c : Char)
    (place : List Char) (hc : c ∉ options) (hdash : ¬ (c = '-' ∧ place = []))
    (hcolon : options.head? ≠ some ':') :
    (getoptWord options next (c :: place)).1.head? =
      some ⟨'?', none, some ("unknown option -- " ++ String.singleton c)⟩ := by
  unfold getoptWord
  simp [hc, hdash, hcolon]

theorem getoptAll_nil_options_ne (c : Char) (cs : List Char) (rest : List String)
    (hdash : ¬ (c = '-' ∧ cs = [])) :
    (getoptAll [] (String.mk ('-' :: c :: cs) :: rest)).1 ≠ [] := by
  have hw : ∀ next, ∃ r t e, getoptWord [] next (c :: cs) = (r :: t, e) := by
    intro next
    refine ⟨⟨'?', none, some ("unknown option -- " ++ String.singleton c)⟩,
      (getoptWord [] next cs).1, (getoptWord [] next cs).2, ?_⟩
    conv => lhs; unfold getoptWord
    simp [hdash]
  cases rest with
  | nil =>
    obtain ⟨r, t, e, h⟩ := hw none
    unfold getoptAll
    simp only [String.toList]
    simp only [hdash, if_false, h]
    cases e <;> simp
  | cons a rest =>
    obtain ⟨r, t, e, h⟩ := hw (some a)
    unfold getoptAll
    simp only [String.toList]
    simp only [hdash, if_false, h]
    cases e with
    | next b => cases b <;> simp
    | stop => simp

end Libc

namespace W

open Libc

/-! ### Lemmas on the option loop of w -/

theorem optLoop_append (progname : String) (wcmd : Bool) (pre rest : List GetoptRet)
    (w w1 : Written) (f f1 : Flags)
    (h : optLoop progname wcmd w f pre = .ok (w1, f1)) :
    optLoop progname wcmd w f (pre ++ rest) = optLoop progname wcmd w1 f1 rest := by
  induction pre generalizing w f with
  | nil =>
    simp only [optLoop] at h
    cases h
    rfl
  | cons g gs ih =>
    simp only [optLoop, List.cons_append] at h ⊢
    split at h
    · cases h
    · rename_i f2 hc
      exact ih _ _ h

theorem main_usage_exit (env : Env) (progname : String) (args : List String)
    (wcmd : Bool) (pre post : List GetoptRet) (g : GetoptRet) (argv : List String)
    (w1 : Written) (f1 : Flags)
    (hmode : selectMode progname.toList = some wcmd)
    (hargs : getoptAll (optstring wcmd).toList args = (pre ++ g :: post, argv))
    (hpre : optLoop progname wcmd Written.empty Flags.init pre = .ok (w1, f1)) :
    main env progname args =
      match optCase progname wcmd
        (match g.diag with
          | some d => Written.empty.err (progname ++ ": " ++ d ++ "\n")
          | none => Written.empty) f1 g with
      | .error out => out
      | .ok f2 =>
        match optLoop progname wcmd
          (match g.diag with
            | some d => Written.empty.err (progname ++ ": " ++ d ++ "\n")
            | none => Written.empty) f2 post with
        | .error out => out
        | .ok (w, f) => afterOpts env progname wcmd f w argv := by
  have hd := getoptAll_diag (optstring wcmd).toList args
  rw [hargs] at hd
  have hw : w1 = Written.empty :=
    wOptLoop_ok_written _ _ _ (fun x hx => hd x (List.mem_append_left _ hx)) _ _ _ _ hpre
  subst hw
  unfold main
  simp only [hmode, hargs]
  rw [optLoop_append _ _ _ _ _ _ _ _ hpre]
  simp only [optLoop]
  cases optCase progname wcmd
        (match g.diag with
          | some d => Written.empty.err (progname ++ ": " ++ d ++ "\n")
          | none => Written.empty) f1 g with
  | error out => rfl
  | ok f2 => rfl

/-! ## Claim on the options of w -/

/-- C15: in w mode each of the flags `-f`, `-l`, `-s`, `-u`, `-w` ends the
program with the warning `[-flsuw] no longer supported`, the usage message of
w and exit status 1, and every flag outside `hiflM:N:asuw`, for which getopt
returns `?` after its own diagnostic, ends it with the usage message of w and
exit status 1; in uptime mode every option flag ends the program with
`usage: uptime` and exit status 1.  `pre` are the options before the flag,
which the loop accepted. -/
theorem option_handling :
    (∀ (env : Env) (progname : String) (args : List String) (pre post : List GetoptRet)
      (g : GetoptRet) (argv : List String) (w1 : Written) (f1 : Flags),
      selectMode progname.toList = some true →
      getoptAll (optstring true).toList args = (pre ++ g :: post, argv) →
      optLoop progname true Written.empty Flags.init pre = .ok (w1, f1) →
      (g.ch = 'f' ∨ g.ch = 'l' ∨ g.ch = 's' ∨ g.ch = 'u' ∨ g.ch = 'w') →
      main env progname args =
        ⟨[], [progname ++ ": [-flsuw] no longer supported\n",
              "usage: w [-ahi] [-M core] [-N system] [user]\n"], 1⟩) ∧
    (∀ (env : Env) (progname : String) (args : List String) (pre post : List GetoptRet)
      (g : GetoptRet) (argv : List String) (w1 : Written) (f1 : Flags) (d : String),
      selectMode progname.toList = some true →
      getoptAll (optstring true).toList args = (pre ++ g :: post, argv) →
      optLoop progname true Written.empty Flags.init pre = .ok (w1, f1) →
      g.ch = '?' → g.diag = some d →
      main env progname args =
        ⟨[], [progname ++ ": " ++ d ++ "\n",
              "usage: w [-ahi] [-M core] [-N system] [user]\n"], 1⟩) ∧
    (∀ (next : Option String) (c : Char) (place : List Char),
      c ∉ (optstring true).toList → ¬ (c = '-' ∧ place = []) →
      (getoptWord (optstring true).toList next (c :: place)).1.head? =
        some ⟨'?', none, some ("unknown option -- " ++ String.singleton c)⟩) ∧
    (∀ (env : Env) (progname : String) (args : List String),
      selectMode progname.toList = some false →
      (getoptAll (optstring false).toList args).1 ≠ [] →
      ∃ d, main env progname args =
        ⟨[], [progname ++ ": " ++ d ++ "\n", "usage: uptime\n"], 1⟩) ∧
    (∀ (c : Char) (cs : List Char) (rest : List String), ¬ (c = '-' ∧ cs = []) →
      (getoptAll (optstring false).toList (String.mk ('-' :: c :: cs) :: rest)).1 ≠ []) := by
  refine ⟨?_, ?_, ?_, ?_, ?_⟩
  · intro env progname args pre post g argv w1 f1 hmode hargs hpre hg
    have hd := getoptAll_diag (optstring true).toList args
    rw [hargs] at hd
    have hdiag : g.diag = none := by
      by_contra hne
      have hq := hd g (by simp) hne
      rw [hq] at hg
      revert hg; decide
    rw [main_usage_exit env progname args true pre post g argv w1 f1 hmode hargs hpre]
    have h1 : g.ch ≠ 'h' := by rintro h; rw [h] at hg; revert hg; decide
    have h2 : g.ch ≠ 'i' := by rintro h; rw [h] at hg; revert hg; decide
    have h3 : g.ch ≠ 'M' := by rintro h; rw [h] at hg; revert hg; decide
    have h4 : g.ch ≠ 'N' := by rintro h; rw [h] at hg; revert hg; decide
    have h5 : g.ch ≠ 'a' := by rintro h; rw [h] at hg; revert hg; decide
    simp [optCase, hdiag, h1, h2, h3, h4, h5, hg, usage, Written.err, Written.exit,
      Written.empty]
  · intro env progname args pre post g argv w1 f1 d hmode hargs hpre hg hdiag
    rw [main_usage_exit env progname args true pre post g argv w1 f1 hmode hargs hpre]
    simp [optCase, hdiag, hg, usage, Written.err, Written.exit, Written.empty]
  · intro next c place hc hdash
    exact getoptWord_unknown _ next c place hc hdash (by decide)
  · intro env progname args hmode hne
    cases hgs : (getoptAll (optstring false).toList args).1 with
    | nil => exact absurd hgs hne
    | cons g post =>
      have hall := getoptAll_nil_options args
      have hopt : (optstring false).toList = [] := by decide
      rw [hopt] at hgs
      obtain ⟨hq, hdg⟩ := hall g (by rw [hgs]; simp)
      obtain ⟨d, hd⟩ := Option.ne_none_iff_exists'.mp hdg
      refine ⟨d, ?_⟩
      have hargs : getoptAll (optstring false).toList args =
          ([] ++ g :: post, (getoptAll (optstring false).toList args).2) := by
        rw [hopt]
        exact Prod.ext hgs rfl
      rw [main_usage_exit env progname args false [] post g _ Written.empty Flags.init
        hmode hargs rfl]
      simp [optCase, hd, hq, usage, Written.err, Written.exit, Written.empty]
  · intro c cs rest hdash
    have hopt : (optstring false).toList = [] := by decide
    rw [hopt]
    exact getoptAll_nil_options_ne c cs rest hdash

/-- Witness of C15 at `w -i -s`. -/
theorem option_handling_witness :
    main exEnv "w" ["-i", "-s"] =
      ⟨[], ["w: [-flsuw] no longer supported\n",
            "usage: w [-ahi] [-M core] [-N system] [user]\n"], 1⟩ :=
  option_handling.1 exEnv "w" ["-i", "-s"] [⟨'i', none, none⟩] [] ⟨'s', none, none⟩ []
    Written.empty ⟨true, true, true, none, none⟩ (by decide) (by decide) rfl
    (Or.inr (Or.inr (Or.inl rfl)))


/-! ## Claim on the uptime in the summary line -/

/-- C17: `pr_header` rounds the uptime to the nearest minute: for every uptime
`u > 59` seconds (with a number of days that fits an `int`) the `days`, `hrs`
and `mins` it computes from `u + 30` satisfy
`days*86400 + hrs*3600 + mins*60 ≤ u + 30 < days*86400 + hrs*3600 + mins*60 + 60`
with `0 ≤ hrs < 24` and `0 ≤ mins < 60`; for every `u ≤ 59` (that fits an
`int`) it prints ` u secs,` and no day, hour or minute component. -/
theorem uptime_rounding :
    (∀ u : Int, 59 < u → u + 30 < 2 ^ 31 * 86400 →
      (uptimeParts u).1 * 86400 + (uptimeParts u).2.1 * 3600 + (uptimeParts u).2.2 * 60
          ≤ u + 30 ∧
      u + 30 < (uptimeParts u).1 * 86400 + (uptimeParts u).2.1 * 3600
          + (uptimeParts u).2.2 * 60 + 60 ∧
      0 ≤ (uptimeParts u).2.1 ∧ (uptimeParts u).2.1 < 24 ∧
      0 ≤ (uptimeParts u).2.2 ∧ (uptimeParts u).2.2 < 60) ∧
    (∀ u : Int, u ≤ 59 → -(2 ^ 31) ≤ u →
      prUptime (some u) = " " ++ toString u ++ " secs,") := by
  constructor
  · intro u h59 hmax
    have h64 : toInt64 (u + 30) = u + 30 :=
      toInt64_id _ (by norm_num; omega) (by norm_num at hmax ⊢; omega)
    have hpos : (0 : Int) ≤ u + 30 := by omega
    have hd : Int.tdiv (u + 30) SECSPERDAY = (u + 30) / 86400 := by
      rw [Int.tdiv_eq_ediv hpos (by decide)]; rfl
    have hm : Int.tmod (u + 30) SECSPERDAY = (u + 30) % 86400 := by
      rw [Int.tmod_eq_emod hpos (by decide)]; rfl
    have hpos2 : (0 : Int) ≤ (u + 30) % 86400 := by omega
    have hh : Int.tdiv ((u + 30) % 86400) SECSPERHOUR = (u + 30) % 86400 / 3600 := by
      rw [Int.tdiv_eq_ediv hpos2 (by decide)]; rfl
    have hm2 : Int.tmod ((u + 30) % 86400) SECSPERHOUR = (u + 30) % 86400 % 3600 := by
      rw [Int.tmod_eq_emod hpos2 (by decide)]; rfl
    have hpos3 : (0 : Int) ≤ (u + 30) % 86400 % 3600 := by omega
    have hmin : Int.tdiv ((u + 30) % 86400 % 3600) 60 = (u + 30) % 86400 % 3600 / 60 := by
      rw [Int.tdiv_eq_ediv hpos3 (by decide)]
    have e1 : (uptimeParts u).1 = (u + 30) / 86400 := by
      simp only [uptimeParts, h64, hd]
      exact toInt32_id _ (by omega) (by norm_num at hmax ⊢; omega)
    have e2 : (uptimeParts u).2.1 = (u + 30) % 86400 / 3600 := by
      simp only [uptimeParts, h64, hm, hh]
      exact toInt32_id _ (by omega) (by norm_num; omega)
    have e3 : (uptimeParts u).2.2 = (u + 30) % 86400 % 3600 / 60 := by
      simp only [uptimeParts, h64, hm, hm2, hmin]
      exact toInt32_id _ (by omega) (by norm_num; omega)
    rw [e1, e2, e3]
    omega
  · intro u h59 hmin
    have h32 : toInt32 u = u := by
      unfold toInt32
      norm_num at hmin ⊢
      omega
    simp only [prUptime, h32]
    rw [if_neg (by omega)]

/-- Witness of C17 at an uptime of one hour. -/
theorem uptime_rounding_witness :
    (uptimeParts 3600).1 * 86400 + (uptimeParts 3600).2.1 * 3600
        + (uptimeParts 3600).2.2 * 60 ≤ 3600 + 30 ∧
    3600 + 30 < (uptimeParts 3600).1 * 86400 + (uptimeParts 3600).2.1 * 3600
        + (uptimeParts 3600).2.2 * 60 + 60 ∧
    0 ≤ (uptimeParts 3600).2.1 ∧ (uptimeParts 3600).2.1 < 24 ∧
    0 ≤ (uptimeParts 3600).2.2 ∧ (uptimeParts 3600).2.2 < 60 :=
  uptime_rounding.1 3600 (by decide) (by decide)

/-! ### Lemmas on `pr_args` -/

theorem strncmpEq_ftpd (arg : List Char) :
    strncmpEq 5 arg "ftpd:".toList = true ↔ "ftpd:".toList <+: arg := by
  constructor
  · intro h
    have hc := (strncmpEq_iff _ _ _).mp h
    have hr : cstrn 5 "ftpd:".toList = "ftpd:".toList := by decide
    rw [hr] at hc
    have hp : cstrn 5 arg <+: arg.take 5 := by
      unfold cstrn
      exact List.takeWhile_prefix _
    rw [hc] at hp
    have hlen : (arg.take 5).length ≤ ("ftpd:".toList).length := by
      simp [List.length_take]
    have heq : "ftpd:".toList = arg.take 5 := hp.eq_of_length_le hlen
    rw [heq]
    exact List.take_prefix 5 arg
  · rintro ⟨t, rfl⟩
    simp [strncmpEq, NUL]

theorem dropWhile_ne_append (c : Char) (a X : List Char) (ha : c ∉ a) :
    (a ++ c :: X).dropWhile (fun d => d != c) = c :: X := by
  induction a with
  | nil => simp
  | cons x a ih =>
    have hx : x ≠ c := fun h => ha (by simp [h])
    have ha2 : c ∉ a := fun h => ha (List.mem_cons_of_mem _ h)
    simp [List.dropWhile_cons, hx, ih ha2]

theorem strchr_none_of_not_mem (c : Char) (t : List Char) (h : c ∉ t) :
    strchr t c = none := by
  unfold strchr
  have : t.dropWhile (fun d => d != c) = [] := by
    rw [List.dropWhile_eq_nil_iff]
    intro x hx
    simp only [bne_iff_ne, ne_eq]
    intro hxc
    exact h (hxc ▸ hx)
  rw [this]

theorem strchr_some (c : Char) (s s1 : List Char) (h : strchr s c = some s1) :
    ∃ t, s1 = c :: t ∧ s.count c = 1 + t.count c := by
  unfold strchr at h
  have hsplit := List.takeWhile_append_dropWhile (fun d => d != c) s
  cases hd : s.dropWhile (fun d => d != c) with
  | nil => rw [hd] at h; cases h
  | cons x t =>
    rw [hd] at h hsplit
    simp only [Option.some.injEq] at h
    have hx : x = c := by
      have := List.head_dropWhile_not (fun d => d != c) s (by rw [hd]; simp)
      simp only [hd, List.head_cons, bne_iff_ne, ne_eq, Bool.not_eq_true,
        decide_eq_false_iff_not, not_not] at this
      simpa using this
    subst hx
    refine ⟨t, h.symm, ?_⟩
    have hcnt : (s.takeWhile (fun d => d != x)).count x = 0 := by
      rw [List.count_eq_zero]
      intro hmem
      have := List.mem_takeWhile_imp hmem
      simp at this
    rw [← hsplit, List.count_append, hcnt]
    simp
    omega

theorem fmt_puts_out (env : Env) (str : List Char) (s : Fmt) :
    ∃ k, (fmt_puts env str s).out = s.out ++ (env.strvis str).take k := by
  unfold fmt_puts
  split
  · exact ⟨0, by simp⟩
  · split
    · split
      · exact ⟨s.left.toNat, rfl⟩
      · exact ⟨(env.strvis str).length, by simp⟩
    · exact ⟨(env.strvis str).length, by simp⟩

/-! ## Claim on the ftpd title -/

/-- C18: for the process title `ftpd: HOSTNAME: [USER/PASS: ]CMD args (ftpd)`:
an argument that starts with `ftpd:` and has at least two further colons, the
second of them followed by a white space character, is printed as the
vis-encoded rest after that colon and white space character (cut to the width
that is left); an argument that starts with `ftpd:` but has fewer than two
further colons, and every argument that does not start with `ftpd:`, is
printed whole. -/
theorem ftpd_title :
    (∀ (a b rest : List Char) (ws : Char), ':' ∉ a → ':' ∉ b → isspace ws = true →
      ftpdArg ("ftpd:".toList ++ a ++ [':'] ++ b ++ [':', ws] ++ rest) = rest) ∧
    (∀ arg : List Char, "ftpd:".toList <+: arg → (arg.drop 5).count ':' < 2 →
      ftpdArg arg = arg) ∧
    (∀ arg : List Char, ¬ "ftpd:".toList <+: arg → ftpdArg arg = arg) ∧
    (∀ (env : Env) (arg : List Char) (argv : List (List Char)) (s : Fmt),
      argsLoop env (arg :: argv) s =
        argsLoop env argv (fmt_putc ' ' (fmt_puts env (ftpdArg arg) s))) ∧
    (∀ (env : Env) (arg : List Char) (s : Fmt),
      ∃ k, (fmt_puts env (ftpdArg arg) s).out =
        s.out ++ (env.strvis (ftpdArg arg)).take k) ∧
    (∀ (env : Env) (arg : List Char) (s : Fmt),
      0 < s.left → s.left < 2 ^ 31 →
      ((env.strvis (ftpdArg arg)).length : Int) ≤ s.left →
      (fmt_puts env (ftpdArg arg) s).out = s.out ++ env.strvis (ftpdArg arg)) := by
  refine ⟨?_, ?_, ?_, ?_, ?_, ?_⟩
  · intro a b rest ws ha hb hws
    have hpre : strncmpEq 5 ("ftpd:".toList ++ a ++ [':'] ++ b ++ [':', ws] ++ rest)
        "ftpd:".toList = true :=
      (strncmpEq_ftpd _).mpr ⟨a ++ [':'] ++ b ++ [':', ws] ++ rest, by simp⟩
    have hdrop : ("ftpd:".toList ++ a ++ [':'] ++ b ++ [':', ws] ++ rest).drop 5 =
        a ++ ':' :: (b ++ ':' :: ws :: rest) := by
      simp
    unfold ftpdArg
    rw [if_pos hpre, hdrop]
    have h1 : strchr (a ++ ':' :: (b ++ ':' :: ws :: rest)) ':' =
        some (':' :: (b ++ ':' :: ws :: rest)) := by
      unfold strchr
      rw [dropWhile_ne_append ':' a _ ha]
    rw [h1]
    simp only [List.drop_succ_cons, List.drop_zero]
    have h2 : strchr (b ++ ':' :: ws :: rest) ':' = some (':' :: ws :: rest) := by
      unfold strchr
      rw [dropWhile_ne_append ':' b _ hb]
    rw [h2]
    simp [byteAt, hws]
  · intro arg hpre hcount
    unfold ftpdArg
    rw [if_pos ((strncmpEq_ftpd arg).mpr hpre)]
    cases h1 : strchr (arg.drop 5) ':' with
    | none => rfl
    | some s1 =>
      obtain ⟨t, ht, hc⟩ := strchr_some ':' _ _ h1
      subst ht
      have hnot : ':' ∉ t := by
        intro hmem
        have := List.count_pos_iff.mpr hmem
        omega
      simp only [List.drop_succ_cons, List.drop_zero]
      rw [strchr_none_of_not_mem ':' t hnot]
  · intro arg hpre
    unfold ftpdArg
    have : ¬ strncmpEq 5 arg "ftpd:".toList = true :=
      fun h => hpre ((strncmpEq_ftpd arg).mp h)
    rw [if_neg this]
  · intro env arg argv s
    rfl
  · intro env arg s
    exact fmt_puts_out env (ftpdArg arg) s
  · intro env arg s hpos hint hroom
    unfold fmt_puts
    rw [if_neg (by omega)]
    rw [if_pos (by omega)]
    have hmod : s.left % 2 ^ 64 = s.left := by
      norm_num at hint ⊢
      omega
    rw [hmod, if_neg (by omega)]

/-- Witness of C18 at the title `ftpd: host1: anonymous/pw: LIST (ftpd)`, where
the second further colon is the one after `anonymous/pw`. -/
theorem ftpd_title_witness :
    ftpdArg ("ftpd:".toList ++ " host1".toList ++ [':'] ++ " anonymous/pw".toList ++
      [':', ' '] ++ "LIST (ftpd)".toList) = "LIST (ftpd)".toList :=
  ftpd_title.1 " host1".toList " anonymous/pw".toList "LIST (ftpd)".toList ' '
    (by decide) (by decide) (by decide)


/-! ### Lemmas on the process scan -/

theorem offerProc_cases (env : Env) (kp : KinfoProc) (l : List Entry) :
    ((∀ x ∈ l, ¬ Takes kp x) ∧ offerProc env kp l = l) ∨
    (∃ pre e post, l = pre ++ e :: post ∧ (∀ x ∈ pre, ¬ Takes kp x) ∧ Takes kp e ∧
      offerProc env kp l = pre ++ offered env kp e :: post) := by
  induction l with
  | nil => left; exact ⟨by simp, rfl⟩
  | cons ep rest ih =>
    unfold offerProc
    by_cases hftp : strncmpEq 3 ep.utmp.ut_line "ftp".toList = true
    · rw [if_pos hftp]
      by_cases hpid : kp.p_pid = ftpPid ep.utmp.ut_line
      · rw [if_pos hpid]
        right
        refine ⟨[], ep, rest, rfl, by simp, ?_, ?_⟩
        · unfold Takes ftpLine
          rw [if_pos hftp]
          exact hpid
        · unfold offered ftpLine
          rw [if_pos (Or.inl hftp)]
          rfl
      · rw [if_neg hpid]
        have hnt : ¬ Takes kp ep := by
          unfold Takes ftpLine
          rw [if_pos hftp]
          exact hpid
        rcases ih with ⟨hall, heq⟩ | ⟨pre, e, post, hl, hpre, he, heq⟩
        · left
          refine ⟨?_, by rw [heq]⟩
          intro x hx
          rcases List.mem_cons.mp hx with rfl | hx
          · exact hnt
          · exact hall x hx
        · right
          refine ⟨ep :: pre, e, post, by rw [hl]; rfl, ?_, he, by rw [heq]; rfl⟩
          intro x hx
          rcases List.mem_cons.mp hx with rfl | hx
          · exact hnt
          · exact hpre x hx
    · rw [if_neg hftp]
      by_cases hfg : ep.tdev % 2 ^ 32 = kp.p_tdev % 2 ^ 32 ∧ kp.p__pgid = kp.p_tpgid
      · rw [if_pos hfg]
        right
        refine ⟨[], ep, rest, rfl, by simp, ?_, ?_⟩
        · simp only [Takes, ftpLine, hftp]
          exact hfg
        · unfold offered ftpLine
          by_cases hc : env.proc_compare ep.kp kp = true
          · rw [if_pos hc, if_pos (Or.inr hc)]
            rfl
          · rw [if_neg hc, if_neg (by tauto)]
            rfl
      · rw [if_neg hfg]
        have hnt : ¬ Takes kp ep := by
          simp only [Takes, ftpLine, hftp]
          exact hfg
        rcases ih with ⟨hall, heq⟩ | ⟨pre, e, post, hl, hpre, he, heq⟩
        · left
          refine ⟨?_, by rw [heq]⟩
          intro x hx
          rcases List.mem_cons.mp hx with rfl | hx
          · exact hnt
          · exact hall x hx
        · right
          refine ⟨ep :: pre, e, post, by rw [hl]; rfl, ?_, he, by rw [heq]; rfl⟩
          intro x hx
          rcases List.mem_cons.mp hx with rfl | hx
          · exact hnt
          · exact hpre x hx

theorem offered_KpSpec (env : Env) (kp : KinfoProc) (e : Entry)
    (hflags : kp.p_psflags &&& (PS_EMBRYO ||| PS_ZOMBIE) = 0)
    (ht : Takes kp e) (he : KpSpec e) : KpSpec (offered env kp e) := by
  unfold offered
  split
  · intro p hp
    simp only [Option.some.injEq] at hp
    subst hp
    exact ⟨hflags, ht⟩
  · exact he

theorem offerProc_KpSpec (env : Env) (kp : KinfoProc) (l : List Entry)
    (hflags : kp.p_psflags &&& (PS_EMBRYO ||| PS_ZOMBIE) = 0)
    (hl : ∀ e ∈ l, KpSpec e) : ∀ e ∈ offerProc env kp l, KpSpec e := by
  rcases offerProc_cases env kp l with ⟨_, heq⟩ | ⟨pre, e, post, hsplit, _, he, heq⟩
  · rw [heq]; exact hl
  · rw [heq]
    intro x hx
    have hmem : ∀ y, y ∈ pre ∨ y = e ∨ y ∈ post → y ∈ l := by
      intro y hy
      rw [hsplit]
      simp only [List.mem_append, List.mem_cons]
      tauto
    simp only [List.mem_append, List.mem_cons] at hx
    rcases hx with h | h | h
    · exact hl x (hmem x (Or.inl h))
    · rw [h]
      exact offered_KpSpec env kp e hflags he (hl e (hmem e (Or.inr (Or.inl rfl))))
    · exact hl x (hmem x (Or.inr (Or.inr h)))

theorem procScan_KpSpec (env : Env) (procs : List KinfoProc) (l : List Entry)
    (hl : ∀ e ∈ l, KpSpec e) : ∀ e ∈ procScan env procs l, KpSpec e := by
  unfold procScan
  induction procs generalizing l with
  | nil => exact hl
  | cons kp procs ih =>
    simp only [List.foldl_cons]
    apply ih
    unfold procStep
    split
    · exact hl
    · rename_i hflags
      exact offerProc_KpSpec env kp l (by simpa using hflags) hl

theorem scanUtmp_kp_none (env : Env) (wcmd : Bool) (sel_user : Option (List Char))
    (records : List Utmp) : ∀ e ∈ (scanUtmp env wcmd sel_user records).2, e.kp = none := by
  intro e he
  cases wcmd with
  | false =>
    have : (scanUtmp env false sel_user records).2 = [] := by
      unfold scanUtmp; rw [scan_uptime_aux]
    rw [this] at he
    cases he
  | true =>
    rw [scanUtmp_w] at he
    obtain ⟨u, _, hu⟩ := List.mem_map.mp he
    rw [← hu]
    unfold entryOf
    split <;> rfl


theorem digit_val_le (c : Char) (h : c.isDigit = true) : c.toNat - 48 ≤ 9 := by
  unfold Char.isDigit at h
  simp only [ge_iff_le, Bool.and_eq_true, decide_eq_true_eq] at h
  have h2 : c.val ≤ 57 := h.2
  have h3 : c.val.toNat ≤ 57 := by
    have := UInt32.le_def.mp h2
    simpa using this
  unfold Char.toNat
  omega

theorem digits_bound (l : List Char) (acc : Int) (hl : ∀ c ∈ l, c.isDigit = true)
    (h0 : 0 ≤ acc) :
    0 ≤ l.foldl (fun acc c => acc * 10 + ((c.toNat - 48 : Nat) : Int)) acc ∧
    l.foldl (fun acc c => acc * 10 + ((c.toNat - 48 : Nat) : Int)) acc
      < (acc + 1) * 10 ^ l.length := by
  induction l generalizing acc with
  | nil => simp [h0]
  | cons c l ih =>
    simp only [List.foldl_cons, List.length_cons]
    have hc := digit_val_le c (hl c (List.mem_cons_self _ _))
    have hacc : (0 : Int) ≤ acc * 10 + ((c.toNat - 48 : Nat) : Int) := by omega
    obtain ⟨i1, i2⟩ := ih (acc * 10 + ((c.toNat - 48 : Nat) : Int))
      (fun x hx => hl x (List.mem_cons_of_mem _ hx)) hacc
    refine ⟨i1, lt_of_lt_of_le i2 ?_⟩
    have hp : (0 : Int) ≤ 10 ^ l.length := by positivity
    have hle : acc * 10 + ((c.toNat - 48 : Nat) : Int) + 1 ≤ (acc + 1) * 10 := by omega
    calc (acc * 10 + ((c.toNat - 48 : Nat) : Int) + 1) * 10 ^ l.length
        ≤ ((acc + 1) * 10) * 10 ^ l.length := Int.mul_le_mul_of_nonneg_right hle hp
      _ = (acc + 1) * 10 ^ (l.length + 1) := by ring

theorem strtol10_short (s : List Char) (h : s.length ≤ 5) :
    -(10 ^ 5) < strtol10 s ∧ strtol10 s < 10 ^ 5 := by
  unfold strtol10
  have ht : (s.dropWhile isspace).length ≤ 5 :=
    le_trans (List.dropWhile_sublist _).length_le h
  generalize s.dropWhile isspace = t at ht
  have hd : ∀ d : List Char, d.length ≤ 5 →
      0 ≤ (d.takeWhile Char.isDigit).foldl
          (fun acc c => acc * 10 + ((c.toNat - 48 : Nat) : Int)) 0 ∧
      (d.takeWhile Char.isDigit).foldl
          (fun acc c => acc * 10 + ((c.toNat - 48 : Nat) : Int)) 0 < 10 ^ 5 := by
    intro d hdl
    have hb := digits_bound (d.takeWhile Char.isDigit) 0
      (fun c hc => List.mem_takeWhile_imp hc) (le_refl _)
    refine ⟨hb.1, lt_of_lt_of_le hb.2 ?_⟩
    have hlen : (d.takeWhile Char.isDigit).length ≤ 5 :=
      le_trans (List.takeWhile_sublist _).length_le hdl
    simp only [zero_add, one_mul]
    exact pow_le_pow_right₀ (by norm_num) hlen
  have hdlen : (match t with
      | '-' :: r => r
      | '+' :: r => r
      | _ => t).length ≤ 5 := by
    split
    · simp only [List.length_cons] at ht; omega
    · simp only [List.length_cons] at ht; omega
    · exact ht
  obtain ⟨n0, n1⟩ := hd _ hdlen
  simp only
  split
  · norm_num at n1 ⊢
    omega
  · norm_num at n1 ⊢
    omega

theorem ftpPid_eq (ut_line : List Char) :
    ftpPid ut_line = strtol10 (cstrn (UT_LINESIZE - 3) (ut_line.drop 3)) := by
  unfold ftpPid
  have hlen : (cstrn (UT_LINESIZE - 3) (ut_line.drop 3)).length ≤ 5 := by
    unfold cstrn
    refine le_trans (List.takeWhile_sublist _).length_le ?_
    simp [List.length_take, UT_LINESIZE]
  obtain ⟨h0, h1⟩ := strtol10_short _ hlen
  unfold toInt32
  norm_num at h0 h1 ⊢
  omega

theorem ftpLine_iff (ep : Entry) :
    ftpLine ep = true ↔ "ftp".toList <+: ep.utmp.ut_line := by
  unfold ftpLine
  constructor
  · intro h
    have hc := (strncmpEq_iff _ _ _).mp h
    have hr : cstrn 3 "ftp".toList = "ftp".toList := by decide
    rw [hr] at hc
    have hp : cstrn 3 ep.utmp.ut_line <+: ep.utmp.ut_line.take 3 := by
      unfold cstrn
      exact List.takeWhile_prefix _
    rw [hc] at hp
    have hlen : (ep.utmp.ut_line.take 3).length ≤ ("ftp".toList).length := by
      simp [List.length_take]
    have heq : "ftp".toList = ep.utmp.ut_line.take 3 := hp.eq_of_length_le hlen
    rw [heq]
    exact List.take_prefix 3 _
  · rintro ⟨t, ht⟩
    rw [← ht]
    simp [strncmpEq, NUL]

/-! ## Claim on the process scan -/

/-- C19: after the process scan every entry `e` of the list whose process
`e.kp` is set has a process that is neither `PS_EMBRYO` nor `PS_ZOMBIE`; if
the line of `e` begins with `ftp` the pid of the process is the decimal number
parsed from the at most five characters after `ftp`; otherwise the controlling
terminal of the process is `e.tdev` (as 32-bit device numbers) and its process
group is the foreground process group of that terminal.  An embryo or zombie
is offered to no entry; any other process is handed to at most one entry, the
first in list order at which the loop ends, so to no non-ftp entry but the
first one whose terminal it is in the foreground of. -/
theorem process_scan :
    (∀ (env : Env) (wcmd sortidle : Bool) (sel_user : Option (List Char))
      (records : List Utmp) (procs : List KinfoProc),
      ∀ e ∈ sortPass sortidle (procScan env procs (scanUtmp env wcmd sel_user records).2),
        KpSpec e) ∧
    (∀ (kp : KinfoProc) (ep : Entry), ftpLine ep = true →
      (Takes kp ep ↔
        kp.p_pid = strtol10 (cstrn (UT_LINESIZE - 3) (ep.utmp.ut_line.drop 3)))) ∧
    (∀ (kp : KinfoProc) (ep : Entry), ftpLine ep = false →
      (Takes kp ep ↔
        (ep.tdev % 2 ^ 32 = kp.p_tdev % 2 ^ 32 ∧ kp.p__pgid = kp.p_tpgid))) ∧
    (∀ ep : Entry, ftpLine ep = true ↔ "ftp".toList <+: ep.utmp.ut_line) ∧
    (∀ (env : Env) (kp : KinfoProc) (l : List Entry),
      kp.p_psflags &&& (PS_EMBRYO ||| PS_ZOMBIE) ≠ 0 → procStep env l kp = l) ∧
    (∀ (env : Env) (kp : KinfoProc) (l : List Entry),
      kp.p_psflags &&& (PS_EMBRYO ||| PS_ZOMBIE) = 0 →
      ((∀ x ∈ l, ¬ Takes kp x) ∧ procStep env l kp = l) ∨
      (∃ pre e post, l = pre ++ e :: post ∧ (∀ x ∈ pre, ¬ Takes kp x) ∧ Takes kp e ∧
        procStep env l kp = pre ++ offered env kp e :: post)) := by
  refine ⟨?_, ?_, ?_, ftpLine_iff, ?_, ?_⟩
  · intro env wcmd sortidle sel_user records procs e he
    rw [sortPass_mem] at he
    refine procScan_KpSpec env procs _ ?_ e he
    intro x hx p hp
    rw [scanUtmp_kp_none env wcmd sel_user records x hx] at hp
    cases hp
  · intro kp ep hftp
    unfold Takes
    rw [if_pos hftp, ftpPid_eq]
  · intro kp ep hftp
    unfold Takes
    rw [if_neg (by rw [hftp]; decide)]
  · intro env kp l hflags
    unfold procStep
    rw [if_pos hflags]
  · intro env kp l hflags
    have hstep : procStep env l kp = offerProc env kp l := by
      unfold procStep
      rw [if_neg (by rw [hflags]; decide)]
    rw [hstep]
    exact offerProc_cases env kp l

/-- Witness of C19: the entry of `alice` after the scan of a process table
that holds the shell on her terminal. -/
theorem process_scan_witness :
    KpSpec ⟨⟨"ttyp0".toList, "alice".toList, "host1".toList, 1000⟩, 5, 100, some exProc⟩ :=
  process_scan.1 exEnv true false none exUtmp [exProc] _ (by decide)

end W

namespace Ypwhich

open Libc

/-! ### Lemmas on the map enumeration -/

theorem mapLoop_written (env : Env) (o : Opts) (ypml : List String) (w : Written) :
    (mapLoop env o (clientOf env o) w ypml).stdout =
      w.stdout ++ ypml.filterMap (masterLine env o) ∧
    (mapLoop env o (clientOf env o) w ypml).stderr =
      w.stderr ++ ypml.filterMap (masterDiag env o) := by
  induction ypml generalizing w with
  | nil => simp [mapLoop]
  | cons map y ih =>
    unfold mapLoop
    by_cases h : (master env o (clientOf env o) map).1 = 0
    · simp only [h, if_true]
      rw [(ih _).1, (ih _).2]
      simp [masterLine, masterDiag, h, Written.out, List.filterMap_cons]
    · simp only [h, if_false]
      rw [(ih _).1, (ih _).2]
      simp [masterLine, masterDiag, h, Written.err, List.filterMap_cons]

theorem masterLine_or_diag (env : Env) (o : Opts) (ypml : List String) :
    (ypml.filterMap (masterLine env o)).length + (ypml.filterMap (masterDiag env o)).length
      = ypml.length := by
  induction ypml with
  | nil => rfl
  | cons map y ih =>
    by_cases h : (master env o (clientOf env o) map).1 = 0
    · simp [List.filterMap_cons, masterLine, masterDiag, h] at ih ⊢
      omega
    · simp [List.filterMap_cons, masterLine, masterDiag, h] at ih ⊢
      omega

/-! ## Claim on the map enumeration -/

/-- C20: in `ypwhich -m` without a map name, for every map list returned:
stdout receives, in list order, one line `<map> <master>` for exactly the maps
whose master lookup returned 0; every failed lookup gives one diagnostic on
stderr and the enumeration goes on; so every map of the list is looked up, in
list order, and accounts for one line or one diagnostic; the exit status is 0
whatever the lookups returned. -/
theorem map_enumeration (env : Env) (args : List String) (domain : String)
    (w : Written) (o : Opts)
    (hdom : env.yp_get_default_domain = some domain)
    (hopt : optLoop Written.empty ⟨domain, none, false, 0⟩
      (getoptAll "xd:h:mt".toList args).1 = .ok (w, o))
    (hmode : o.mode ≠ 0)
    (hargs : (getoptAll "xd:h:mt".toList args).2 = []) :
    main env args =
      ⟨(maplist env o).2.filterMap (masterLine env o),
       (maplist env o).2.filterMap (masterDiag env o), 0⟩ ∧
    (main env args).stdout.length + (main env args).stderr.length
      = (maplist env o).2.length := by
  have hw : w = Written.empty :=
    optLoop_ok_written _ (getoptAll_diag _ _) _ _ _ _ hopt
  subst hw
  have hmain : main env args =
      ⟨(maplist env o).2.filterMap (masterLine env o),
       (maplist env o).2.filterMap (masterDiag env o), 0⟩ := by
    unfold main
    rw [hdom]
    simp only [hopt, hargs]
    simp only [afterOpts, hmode, if_false, List.length_nil, List.head?_nil]
    have hl : (match o.host with
        | some _ => env.yp_maplist_host (clientOf env o) o.domain
        | none => env.yp_maplist o.domain) = maplist env o := rfl
    simp only [gt_iff_lt, Nat.not_lt_zero, if_false, if_true, hl, Written.exit]
    rw [(mapLoop_written env o _ _).1, (mapLoop_written env o _ _).2]
    simp [Written.empty]
  refine ⟨hmain, ?_⟩
  rw [hmain]
  exact masterLine_or_diag env o _

/-- Witness of C20 at `ypwhich -m` on a site where the lookup of the second
of three maps fails. -/
theorem map_enumeration_witness :
    main exEnvPartial ["-m"] =
      ⟨["passwd.byname nis1\n", "hosts.byaddr nis1\n"],
       ["YP: can't find the master of netid.byname: Reason: YP error 5\n"], 0⟩ :=
  (map_enumeration exEnvPartial ["-m"] "example.org" Written.empty
    ⟨"example.org", none, false, 1⟩ (by decide) rfl (by decide) (by decide)).1

end Ypwhich

namespace Dwarf

/-! ## Claims on the name tables of dwarf.h -/

set_option maxRecDepth 100000 in
/-- C12: `DW_TAG_NAMES` is indexed by tag value minus one: the table has
exactly 0x43 elements, and for every `i` in 1..0x43 element `i - 1` is the
name of the tag that the header defines with value `i`, and `NULL` when no tag
has value `i`, which is the case for 0x06, 0x07, 0x09, 0x0c, 0x0e, 0x14, 0x29
and 0x3e only. -/
theorem tag_names :
    (arrayOf DW_TAG_NAMES).length = 0x43 ∧
    (∀ i, 1 ≤ i → i ≤ 0x43 →
      (arrayOf DW_TAG_NAMES).getD (i - 1) none = nameOf DW_TAG i) ∧
    (∀ i, 1 ≤ i → i ≤ 0x43 →
      ((arrayOf DW_TAG_NAMES).getD (i - 1) none = none ↔
        i ∈ [0x06, 0x07, 0x09, 0x0c, 0x0e, 0x14, 0x29, 0x3e])) := by
  have h1 : ∀ i, i ≤ 0x43 → 1 ≤ i →
      (arrayOf DW_TAG_NAMES).getD (i - 1) none = nameOf DW_TAG i := by decide
  have h2 : ∀ i, i ≤ 0x43 → 1 ≤ i →
      ((arrayOf DW_TAG_NAMES).getD (i - 1) none = none ↔
        i ∈ [0x06, 0x07, 0x09, 0x0c, 0x0e, 0x14, 0x29, 0x3e]) := by decide
  exact ⟨by decide, fun i a b => h1 i b a, fun i a b => h2 i b a⟩

/-- Witness of C12 at the tag value 0x11. -/
theorem tag_names_witness :
    (arrayOf DW_TAG_NAMES).getD (0x11 - 1) none = some "DW_TAG_compile_unit" :=
  tag_names.2.1 0x11 (by decide) (by decide)

set_option maxRecDepth 100000 in
/-- C13: `DW_AT_NAMES` is indexed by attribute value minus one: for every `i`
in 1..0x87 element `i - 1` is the name of the attribute that the header
defines (first) with value `i`, which is `DW_AT_bit_stride` for 0x2e and
`DW_AT_noreturn` for 0x87, and `NULL` where no attribute has value `i`; that
includes every index left unset between `DW_AT_linkage_name` (0x6e) and the
designated initializer of `DW_AT_noreturn`.  The table has 0x87 elements. -/
theorem at_names :
    (arrayOf DW_AT_NAMES).length = 0x87 ∧
    (∀ i, 1 ≤ i → i ≤ 0x87 →
      (arrayOf DW_AT_NAMES).getD (i - 1) none = nameOf DW_AT i) ∧
    (arrayOf DW_AT_NAMES).getD (0x2e - 1) none = some "DW_AT_bit_stride" ∧
    (arrayOf DW_AT_NAMES).getD (0x6e - 1) none = some "DW_AT_linkage_name" ∧
    (arrayOf DW_AT_NAMES).getD (0x87 - 1) none = some "DW_AT_noreturn" ∧
    (∀ i, 0x6f ≤ i → i ≤ 0x86 → (arrayOf DW_AT_NAMES).getD (i - 1) none = none) := by
  have h1 : ∀ i, i ≤ 0x87 → 1 ≤ i →
      (arrayOf DW_AT_NAMES).getD (i - 1) none = nameOf DW_AT i := by decide
  have h2 : ∀ i, i ≤ 0x86 → 0x6f ≤ i →
      (arrayOf DW_AT_NAMES).getD (i - 1) none = none := by decide
  exact ⟨by decide, fun i a b => h1 i b a, by decide, by decide, by decide,
    fun i a b => h2 i b a⟩

/-- Witness of C13 at the attribute value 0x49. -/
theorem at_names_witness :
    (arrayOf DW_AT_NAMES).getD (0x49 - 1) none = some "DW_AT_type" :=
  at_names.2.1 0x49 (by decide) (by decide)

set_option maxRecDepth 100000 in
/-- C14: `DW_FORM_NAMES` and `DW_OP_NAMES` are indexed by value minus one: for
every `i` in 1..0x20 element `i - 1` of `DW_FORM_NAMES` is the name of the
form defined with value `i`, and `NULL` where none is defined, which is the
case for 0x02 and 0x1a..0x1f only; for every `i` in 1..0x9f element `i - 1` of
`DW_OP_NAMES` is the name of the opcode defined with value `i`, and `NULL`
where none is defined, which is the case for 0x01, 0x02, 0x04, 0x05 and 0x07
only. -/
theorem form_and_op_names :
    (∀ i, 1 ≤ i → i ≤ 0x20 →
      (arrayOf DW_FORM_NAMES).getD (i - 1) none = nameOf DW_FORM i) ∧
    (∀ i, 1 ≤ i → i ≤ 0x20 →
      ((arrayOf DW_FORM_NAMES).getD (i - 1) none = none ↔
        i ∈ [0x02, 0x1a, 0x1b, 0x1c, 0x1d, 0x1e, 0x1f])) ∧
    (∀ i, 1 ≤ i → i ≤ 0x9f →
      (arrayOf DW_OP_NAMES).getD (i - 1) none = nameOf DW_OP i) ∧
    (∀ i, 1 ≤ i → i ≤ 0x9f →
      ((arrayOf DW_OP_NAMES).getD (i - 1) none = none ↔
        i ∈ [0x01, 0x02, 0x04, 0x05, 0x07])) ∧
    (arrayOf DW_FORM_NAMES).length = 0x20 ∧ (arrayOf DW_OP_NAMES).length = 0x9f := by
  have h1 : ∀ i, i ≤ 0x20 → 1 ≤ i →
      (arrayOf DW_FORM_NAMES).getD (i - 1) none = nameOf DW_FORM i := by decide
  have h2 : ∀ i, i ≤ 0x20 → 1 ≤ i →
      ((arrayOf DW_FORM_NAMES).getD (i - 1) none = none ↔
        i ∈ [0x02, 0x1a, 0x1b, 0x1c, 0x1d, 0x1e, 0x1f]) := by decide
  have h3 : ∀ i, i ≤ 0x9f → 1 ≤ i →
      (arrayOf DW_OP_NAMES).getD (i - 1) none = nameOf DW_OP i := by decide
  have h4 : ∀ i, i ≤ 0x9f → 1 ≤ i →
      ((arrayOf DW_OP_NAMES).getD (i - 1) none = none ↔
        i ∈ [0x01, 0x02, 0x04, 0x05, 0x07]) := by decide
  exact ⟨fun i a b => h1 i b a, fun i a b => h2 i b a, fun i a b => h3 i b a,
    fun i a b => h4 i b a, by decide, by decide⟩

/-- Witness of C14 at the form value 0x20 and the opcode value 0x9f. -/
theorem form_and_op_names_witness :
    (arrayOf DW_FORM_NAMES).getD (0x20 - 1) none = some "DW_FORM_ref_sig8" ∧
    (arrayOf DW_OP_NAMES).getD (0x9f - 1) none = some "DW_OP_stack_value" :=
  ⟨form_and_op_names.1 0x20 (by decide) (by decide),
   form_and_op_names.2.2.1 0x9f (by decide) (by decide)⟩

end Dwarf
